import Mathlib

/-!
Verification development for the Tableau workbook comparator
(`tableau_comparator.py`).  The Python source is shallowly embedded:

* Python strings are `String`; values that may be Python `None` are
  `Option String` (a list cell holding `None` is `none`).
* Python dicts are association lists `List (String × α)` preserving
  insertion order; `dict.setdefault`/assignment keep the position of the
  first insertion and append fresh keys at the end.
* Python runtime errors (`TypeError`/`AttributeError` raised on a `None`
  bullet) are modelled with `Except Unit`.
* External collaborators that the spec declares out of scope (the
  `xmldiff` library, the GPT summarizer, the XML-parsing feature
  collector) are parameters of an `Env` record; all control flow of the
  comparator itself is embedded from the source.
-/

/-- Python `in` on character lists: `leadsWith p l` is true when `p` is an
initial segment of `l`. -/
def leadsWith : List Char → List Char → Bool
  | [], _ => true
  | _ :: _, [] => false
  | a :: as, b :: bs => a = b && leadsWith as bs

/-- `occursIn p l` is true when `p` occurs contiguously inside `l`. -/
def occursIn (p : List Char) : List Char → Bool
  | [] => leadsWith p []
  | l@(_ :: t) => leadsWith p l || occursIn p t

/-- Python `pat in s` substring test. -/
def strIn (pat s : String) : Bool := occursIn pat.data s.data

/-- The characters of `l` that follow the first occurrence of `sep`
(`sep` nonempty).  Helper for Python `s.split(sep, 1)[-1]`. -/
def afterFirstAux (sep : List Char) : List Char → List Char
  | [] => []
  | l@(_ :: t) => if leadsWith sep l then (l.drop sep.length) else afterFirstAux sep t

/-- Python `s.split(sep, 1)[-1]` when `sep` occurs in `s`. -/
def afterFirst (sep s : String) : String := ⟨afterFirstAux sep.data s.data⟩

/-- ASCII lowercasing of one character (the comparator's vocabulary and
the fragments compared are ASCII, so this models Python `str.lower`). -/
def chLower (c : Char) : Char :=
  if 65 ≤ c.toNat ∧ c.toNat ≤ 90 then Char.ofNat (c.toNat + 32) else c

/-- ASCII uppercasing of one character (models Python `str.upper`). -/
def chUpper (c : Char) : Char :=
  if 97 ≤ c.toNat ∧ c.toNat ≤ 122 then Char.ofNat (c.toNat - 32) else c

/-- Python `s.lower()`. -/
def pyLower (s : String) : String := ⟨s.data.map chLower⟩

/-- Python `s.upper()`. -/
def pyUpper (s : String) : String := ⟨s.data.map chUpper⟩

/-- The whitespace stripped by Python `str.strip`. -/
def isSpaceChar (c : Char) : Bool :=
  c = ' ' ∨ c = Char.ofNat 9 ∨ c = Char.ofNat 10 ∨ c = Char.ofNat 13 ∨
  c = Char.ofNat 11 ∨ c = Char.ofNat 12

/-- Python `s.strip()`. -/
def pyStrip (s : String) : String :=
  ⟨((s.data.dropWhile isSpaceChar).reverse.dropWhile isSpaceChar).reverse⟩

/-- Python `s.startswith(pat)`. -/
def strStarts (s pat : String) : Bool := leadsWith pat.data s.data

/-- Python code-point lexicographic string order, on character lists. -/
def charListLe : List Char → List Char → Bool
  | [], _ => true
  | _ :: _, [] => false
  | a :: as, b :: bs =>
      if a.toNat < b.toNat then true
      else if b.toNat < a.toNat then false
      else charListLe as bs

/-- Python `a <= b` on strings. -/
def strLeB (a b : String) : Bool := charListLe a.data b.data

/-- `s.splitlines()` / `s.split("\n")` on character lists. -/
def splitLinesAux : List Char → List (List Char)
  | [] => [[]]
  | c :: t =>
      if c = Char.ofNat 10 then [] :: splitLinesAux t
      else
        match splitLinesAux t with
        | [] => [[]]
        | h :: r => (c :: h) :: r

/-- Python `s.split("\n")` (`splitlines` only adds an empty trailing
entry, which the line loops ignore). -/
def splitLines (s : String) : List String := (splitLinesAux s.data).map (fun l => ⟨l⟩)

/-- A single-quote character, kept as a named constant. -/
def quoteCh : String := ⟨[Char.ofNat 39]⟩

/-- The closing-brace character. -/
def braceCh : Char := Char.ofNat 125

/-- ASCII letter test (models Python `str.title`'s cased-character
test on the comparator's ASCII inputs). -/
def chAlpha (c : Char) : Bool :=
  (65 ≤ c.toNat ∧ c.toNat ≤ 90) ∨ (97 ≤ c.toNat ∧ c.toNat ≤ 122)

instance {ε α : Type} [DecidableEq ε] [DecidableEq α] : DecidableEq (Except ε α) := fun x y =>
  match x, y with
  | .ok a, .ok b =>
      if h : a = b then isTrue (by rw [h]) else isFalse (by intro hc; cases hc; exact h rfl)
  | .error a, .error b =>
      if h : a = b then isTrue (by rw [h]) else isFalse (by intro hc; cases hc; exact h rfl)
  | .ok _, .error _ => isFalse (by intro hc; cases hc)
  | .error _, .ok _ => isFalse (by intro hc; cases hc)

/-- Python truthiness of an optional string (`None` and `""` are falsy). -/
def truthy : Option String → Bool
  | none => false
  | some s => s ≠ ""

/-- Python `f"{x}"` on an optional string (`None` prints as `"None"`). -/
def pyStr : Option String → String
  | none => "None"
  | some s => s

/-- `list(dict.fromkeys(l))`: deduplicate keeping first occurrences. -/
def dedupFirstAux [DecidableEq α] (seen : List α) : List α → List α
  | [] => []
  | x :: r => if x ∈ seen then dedupFirstAux seen r else x :: dedupFirstAux (x :: seen) r

/-- `list(dict.fromkeys(l))` with an empty memory. -/
def dedupFirst [DecidableEq α] (l : List α) : List α := dedupFirstAux [] l

/-- `simplify_visual_bullet` (source lines 725–742): collapse noisy bullet
phrasings to canonical keys. -/
def simplify_visual_bullet (b : String) : String :=
  if strIn "Datasource filter added" b then "Datasource filter added"
  else if strIn "Datasource filter removed" b then "Datasource filter removed"
  else if strIn "LOD" b then "LOD calculation modified"
  else if strIn "Hierarchy" b then "Hierarchy structure changed"
  else if strIn "Join condition" b then "Join condition modified"
  else if strIn "Worksheet" b && strIn "added" (pyLower b) then "Worksheet added"
  else if strIn "Worksheet" b && strIn "removed" (pyLower b) then "Worksheet removed"
  else if strIn "Filter controls" b then "Filter control type changed"
  else b

/-- `dedupe_visual_bullets` inner loop; a `None` bullet reaches
`simplify_visual_bullet` and raises (`"..." in None` is a `TypeError`),
modelled as `Except.error`. -/
def dedupe_visual_bullets_aux (seen : List String) :
    List (Option String) → Except Unit (List (Option String))
  | [] => .ok []
  | none :: _ => .error ()
  | some b :: rest =>
      let key := pyLower (simplify_visual_bullet b)
      if key ∈ seen then dedupe_visual_bullets_aux seen rest
      else (dedupe_visual_bullets_aux (key :: seen) rest).map (fun r => some b :: r)

/-- `dedupe_visual_bullets` (source lines 3569–3581): remove duplicates by
simplified lowercase key, keeping the first occurrence. -/
def dedupe_visual_bullets (bs : List (Option String)) : Except Unit (List (Option String)) :=
  dedupe_visual_bullets_aux [] bs

/-- The layout vocabulary of `register_change` (source lines 775–784). -/
def layout_keywords : List String :=
  ["layout", "zone", "position", "dimension", "width", "height",
   "visual arrangement", "container"]

/-- Python `all(any(k in b.lower() for k in layout_keywords) for b in bullets)`:
short-circuits at the first non-matching bullet; a `None` bullet reached by
the generator raises (`None.lower()`), modelled as `Except.error`. -/
def layoutAll : List (Option String) → Except Unit Bool
  | [] => .ok true
  | none :: _ => .error ()
  | some b :: rest =>
      if layout_keywords.any (fun k => strIn k (pyLower b)) then layoutAll rest
      else .ok false

/-- One record of the change registry. -/
structure ChangeEntry where
  status : String
  title : String
  obj : String
  bullets : List (Option String)
deriving DecidableEq, Repr

/-- `CHANGE_REGISTRY` (source lines 862–870, the binding in effect at run
time): a flat workbook list plus per-level dicts from parent name to a
list of records. -/
structure Registry where
  workbook : List ChangeEntry
  datasources : List (String × List ChangeEntry)
  calculations : List (String × List ChangeEntry)
  parameters : List (String × List ChangeEntry)
  worksheets : List (String × List ChangeEntry)
  dashboards : List (String × List ChangeEntry)
  stories : List (String × List ChangeEntry)
deriving DecidableEq, Repr

/-- The freshly initialized `CHANGE_REGISTRY`. -/
def emptyRegistry : Registry := ⟨[], [], [], [], [], [], []⟩

/-- Dict lookup on an insertion-ordered association list. -/
def alookup (m : List (String × α)) (k : String) : Option α :=
  match m with
  | [] => none
  | (k', v) :: r => if k' = k then some v else alookup r k

/-- `d.setdefault(k, []) ; f` applied in place: update the value at `k`
(creating `f []` at the end when `k` is absent). -/
def updateDict (k : String) (f : List ChangeEntry → List ChangeEntry) :
    List (String × List ChangeEntry) → List (String × List ChangeEntry)
  | [] => [(k, f [])]
  | (k', v) :: r => if k' = k then (k', f v) :: r else (k', v) :: updateDict k f r

/-- The semantic-dedupe loop of `register_change` (source lines 829–841):
merge into the first entry with the same object (union bullets keeping
first occurrences, keep the longer status string), else append. -/
def mergeBucket (objName effStatus : String) (shown : List (Option String))
    (entry : ChangeEntry) : List ChangeEntry → List ChangeEntry
  | [] => [entry]
  | e :: rest =>
      if e.obj = objName then
        { e with
          bullets := dedupFirst (e.bullets ++ shown),
          status := if e.status.length < effStatus.length then effStatus else e.status } :: rest
      else e :: mergeBucket objName effStatus shown entry rest

/-- The datasource-filter record built by the append-only branch of
`register_change` (source lines 763–771). -/
def filterEntry (status title : String) (bullets : List (Option String)) : ChangeEntry :=
  ⟨pyStrip status, pyStrip title, "__datasource_filters__", dedupFirst bullets⟩

/-- The status after the dashboard layout-only downgrade of
`register_change` (source lines 773–790): only `level == "dashboard"`
with status exactly `"Modified"` and a nonempty all-layout bullet list is
downgraded to `"Additional"`. -/
def effStatusOf (level status : String) (bullets : List (Option String)) :
    Except Unit String :=
  if level = "dashboard" ∧ status = "Modified" ∧ bullets ≠ [] then
    (layoutAll bullets).map (fun a => if a then "Additional" else status)
  else .ok status

/-- The object name extracted from a title by `register_change`
(source line 797): the part after the first em dash, else the whole
title, trimmed. -/
def objNameOf (title : String) : String :=
  if strIn "—" title then pyStrip (afterFirst "—" title) else pyStrip title

/-- `shown` (source line 794): the deduplicated bullets, capped at 6
unless the title mentions `"Calculation"`. -/
def shownOf (title : String) (clean : List (Option String)) : List (Option String) :=
  if strIn "Calculation" title then clean else clean.take 6

/-- The bucket choice of `register_change` (source lines 806–826): apply a
bucket transformation at the chosen level (an unknown level returns the
registry unchanged). -/
def applyMerge (level parent : String) (f : List ChangeEntry → List ChangeEntry)
    (reg : Registry) : Registry :=
  if level = "workbook" then { reg with workbook := f reg.workbook }
  else if level = "datasource" then
    { reg with datasources := updateDict parent f reg.datasources }
  else if level = "worksheet" then
    { reg with worksheets := updateDict parent f reg.worksheets }
  else if level = "dashboard" then
    { reg with dashboards := updateDict parent f reg.dashboards }
  else if level = "parameter" then
    { reg with parameters := updateDict parent f reg.parameters }
  else if level = "story" then
    { reg with stories := updateDict parent f reg.stories }
  else reg

/-- `register_change` (source lines 756–841).  Datasource-filter records
are append-only; dashboard `"Modified"` layout-only records are
downgraded; bullets are deduplicated and capped at 6 unless the title
mentions `"Calculation"`; same-object records are merged. -/
def register_change (level parent title status : String)
    (bullets : List (Option String)) (reg : Registry) : Except Unit Registry :=
  if level = "datasource" ∧ title = "Datasource Filters" then
    .ok { reg with
          datasources :=
            updateDict parent (fun l => l ++ [filterEntry status title bullets])
              reg.datasources }
  else do
    let effStatus ← effStatusOf level status bullets
    let clean ← dedupe_visual_bullets bullets
    let shown := shownOf title clean
    let objName := objNameOf title
    let entry : ChangeEntry := ⟨pyStrip effStatus, pyStrip title, objName, shown⟩
    .ok (applyMerge level parent (mergeBucket objName effStatus shown entry) reg)

/-- One section map per document tree: `category → (name → fragment)`,
insertion-ordered as the Python dicts (source lines 901–955). -/
structure Sections where
  dashboards : List (String × String)
  worksheets : List (String × String)
  parameters : List (String × String)
  stories : List (String × String)
  datasources : List (String × String)
  calculations : List (String × String)
deriving DecidableEq, Repr

/-- The all-empty section map. -/
def emptySections : Sections := ⟨[], [], [], [], [], []⟩

/-- Parameters for the external collaborators the comparator invokes:
the `xmldiff` text diff, the feature-collector bullets
(`summarize_semantics ∘ collect_semantics`), the GPT summarizer
(`gpt_summarize_item`, keyed by label, object name and diff text),
`extract_formula` (XML fragment parsing), `is_calc_used_as_filter`, and
the datasource classification bullets of `summarize_datasources`. -/
structure Env where
  diffText : String → String → String
  semBullets : String → String → String → List String
  gptLines : String → String → String → List String
  formulaOf : String → Option String
  usedAsFilter : String → Sections → Bool
  dsBullets : String → Option String → List String

/-- `xmldiff_text` (source lines 873–878): empty on a falsy argument,
otherwise the external diff. -/
def xmldiff_text (env : Env) (a b : String) : String :=
  if a = "" ∨ b = "" then "" else env.diffText a b

/-- The meaningful-change vocabulary of `is_story_publish_noise`
(source lines 2509–2518). -/
def meaningful_keywords : List String :=
  ["story-point", "captured-sheet", "zone", "worksheet", "dashboard",
   "filter", "parameter", "calculation"]

/-- The line loop of `is_story_publish_noise`: skip
repository-location/content-url lines, fail on a meaningful keyword. -/
def story_noise_lines : List String → Bool
  | [] => true
  | line :: rest =>
      if strIn "repository-location" line || strIn "content-url" line then
        story_noise_lines rest
      else if meaningful_keywords.any (fun k => strIn k (pyLower line)) then false
      else story_noise_lines rest

/-- `is_story_publish_noise` (source lines 2502–2527): true when every diff
line is backend publish noise. -/
def is_story_publish_noise (env : Env) (old_xml new_xml : String) : Bool :=
  story_noise_lines (splitLines (xmldiff_text env old_xml new_xml))

/-- `is_rls_calculation` (source lines 3593–3597). -/
def is_rls_calculation : Option String → Bool
  | none => false
  | some f =>
      if f = "" then false
      else
        let fu := pyUpper f
        strIn "USERNAME(" fu || strIn "USERFULLNAME(" fu || strIn "ISMEMBEROF(" fu

/-- The `old_rls`/`new_rls` comprehensions of `detect_rls_renames`
(source lines 3629–3639): RLS-classified names with their formulas. -/
def rls_filter (env : Env) (calcs : List (String × String)) : List (String × Option String) :=
  calcs.filterMap (fun p =>
    let f := env.formulaOf p.2
    if is_rls_calculation f then some (p.1, f) else none)

/-- The match list of `detect_rls_renames` (source lines 3641–3645): new
RLS names with a byte-identical formula and a different name. -/
def rls_matches (oldName : String) (oldFormula : Option String)
    (newRls : List (String × Option String)) : List String :=
  (newRls.filter (fun q => q.2 = oldFormula ∧ q.1 ≠ oldName)).map Prod.fst

/-- `detect_rls_renames` (source lines 3626–3651): a rename is recorded for
every old RLS name with exactly one differently-named formula match. -/
def detect_rls_renames (env : Env) (old_calcs new_calcs : List (String × String)) :
    List (String × String) :=
  let old_rls := rls_filter env old_calcs
  let new_rls := rls_filter env new_calcs
  old_rls.filterMap (fun p =>
    match rls_matches p.1 p.2 new_rls with
    | [m] => some (p.1, m)
    | _ => none)

/-- One comparison card of `build_cards`. -/
structure Card where
  status : String
  icon : String
  sect : String
  title : String
  name : String
  bullets : List (Option String)
deriving DecidableEq, Repr

/-- The removed card of the non-calculation loop (source lines 3681–3688). -/
def removedCard (sec label nm : String) : Card :=
  ⟨"removed", "🟥", sec, "Removed " ++ label, nm,
   [some (label ++ " " ++ quoteCh ++ nm ++ quoteCh ++ " removed")]⟩

/-- The added card of the non-calculation loop (source lines 3695–3702). -/
def addedCard (sec label nm : String) : Card :=
  ⟨"added", "🟩", sec, "Added " ++ label, nm,
   [some (label ++ " " ++ quoteCh ++ nm ++ quoteCh ++ " added")]⟩

/-- The modified branch of the non-calculation loop (source lines
3708–3727): semantic bullets, then GPT lines when the diff is usable; a
card only when the bullet list is nonempty. -/
def modifiedCards (env : Env) (sec label nm o n : String) : List Card :=
  let ops := xmldiff_text env o n
  let bullets := env.semBullets label o n
  let bullets2 :=
    if ops ≠ "" ∧ strStarts ops "(xmldiff failed" = false then
      bullets ++ ("--- GPT Summary ---" :: env.gptLines label nm ops)
    else bullets
  if bullets2 ≠ [] then
    [⟨"modified", "🟨", sec, "Modified " ++ label, nm, bullets2.map some⟩]
  else []

/-- The cards one union name contributes in the non-calculation loop of
`build_cards` (source lines 3672–3727).  Python truthiness governs the
branch tests, so an empty fragment is treated as absent. -/
def cards_for_name (env : Env) (sec label : String)
    (old new : List (String × String)) (nm : String) : List Card :=
  let o := alookup old nm
  let n := alookup new nm
  if truthy o ∧ ¬ truthy n then
    if label = "Datasource" then [] else [removedCard sec label nm]
  else if truthy n ∧ ¬ truthy o then
    if label = "Datasource" then [] else [addedCard sec label nm]
  else if truthy o ∧ truthy n ∧ o ≠ n then
    if (label = "Dashboard" ∨ label = "Story") ∧
        is_story_publish_noise env (o.getD "") (n.getD "") then []
    else modifiedCards env sec label nm (o.getD "") (n.getD "")
  else []

/-- `summarize_datasources` (effective definition, source lines
1898–1936): registers a `"Datasource Summary"` info record whose bullets
are derived from the name and the surviving fragment (`new_xml or
old_xml`). -/
def summarize_datasources (env : Env) (ds_name : String)
    (old_xml new_xml : Option String) (reg : Registry) : Except Unit Registry :=
  let xml := if truthy new_xml then new_xml else old_xml
  register_change "datasource" ds_name "Datasource Summary" "info"
    ((env.dsBullets ds_name xml).map some) reg

/-- The registry side effect one union name causes in the
non-calculation loop: removed/added datasources are delegated to
`summarize_datasources` (source lines 3677–3679 and 3691–3693). -/
def reg_effect_for_name (env : Env) (label : String)
    (old new : List (String × String)) (nm : String) (reg : Registry) :
    Except Unit Registry :=
  let o := alookup old nm
  let n := alookup new nm
  if truthy o ∧ ¬ truthy n ∧ label = "Datasource" then
    summarize_datasources env nm o none reg
  else if truthy n ∧ ¬ truthy o ∧ label = "Datasource" then
    summarize_datasources env nm none n reg
  else .ok reg

/-- `sorted(set(old) | set(new))`: the deduplicated key union in Python
string order. -/
def sortedUnion (old new : List (String × String)) : List String :=
  List.insertionSort (fun a b => strLeB a b = true) (dedupFirst (old.map Prod.fst ++ new.map Prod.fst))

/-- The per-name iteration of one non-calculation section. -/
def section_go (env : Env) (sec label : String) (old new : List (String × String)) :
    List String → List Card → Registry → Except Unit (List Card × Registry)
  | [], acc, reg => .ok (acc, reg)
  | nm :: rest, acc, reg => do
      let reg' ← reg_effect_for_name env label old new nm reg
      section_go env sec label old new rest
        (acc ++ cards_for_name env sec label old new nm) reg'

/-- One (section, label) pass of `build_cards` over the sorted union. -/
def section_cards (env : Env) (sec label : String)
    (old new : List (String × String)) (reg : Registry) :
    Except Unit (List Card × Registry) :=
  section_go env sec label old new (sortedUnion old new) [] reg

/-- The rename card of the calculation pass (source lines 3739–3753);
Python formats a missing formula as the string `"None"`. -/
def renameCard (env : Env) (new_calcs : List (String × String)) (p : String × String) : Card :=
  let formula := env.formulaOf ((alookup new_calcs p.2).getD "")
  ⟨"modified", "🟨", "calculations", "Renamed RLS Calculation", p.2,
   [some "Type: Row-Level Security", some ("Old name: " ++ p.1),
    some ("Formula unchanged: " ++ pyStr formula)]⟩

/-- The removed-calculation card (source lines 3762–3776); a falsy
formula contributes a literal Python `None` bullet. -/
def removedCalcCard (env : Env) (nm xml : String) : Card :=
  let formula := env.formulaOf xml
  ⟨"removed", "🟥", "calculations",
   (if is_rls_calculation formula then "Removed RLS Calculation" else "Removed Calculation"),
   nm,
   [some (if is_rls_calculation formula then "Type: Row-Level Security" else "Type: Standard"),
    if truthy formula then some ("Formula: " ++ formula.getD "") else none]⟩

/-- The removed-calculation loop (source lines 3756–3776): old names not
renamed and absent from the new map. -/
def removed_calc_cards (env : Env) (old_calcs new_calcs : List (String × String))
    (renamed_old : List String) : List Card :=
  old_calcs.filterMap (fun p =>
    if p.1 ∈ renamed_old ∨ (alookup new_calcs p.1).isSome then none
    else some (removedCalcCard env p.1 p.2))

/-- The added-calculation card (source lines 3783–3802). -/
def addedCalcCard (env : Env) (new_sections : Sections) (nm xml : String) : Card :=
  let formula := env.formulaOf xml
  ⟨"added", "🟩", "calculations",
   (if is_rls_calculation formula then "Added RLS Calculation" else "Added Calculation"),
   nm,
   ((if is_rls_calculation formula then [some "Type: Row-Level Security"] else []) ++
    (if truthy formula then [some ("Formula: " ++ formula.getD "")] else []) ++
    (if env.usedAsFilter nm new_sections then [some "Applied as worksheet filter (TRUE)"] else []))⟩

/-- The added-calculation loop (source lines 3779–3802): new names not
rename targets and absent from the old map. -/
def added_calc_cards (env : Env) (old_calcs new_calcs : List (String × String))
    (new_sections : Sections) (renamed_new : List String) : List Card :=
  new_calcs.filterMap (fun p =>
    if p.1 ∈ renamed_new ∨ (alookup old_calcs p.1).isSome then none
    else some (addedCalcCard env new_sections p.1 p.2))

/-- The calculation pass of `build_cards` (source lines 3729–3802):
rename cards, then removals, then additions; names present in both maps
produce no card at all. -/
def calc_cards (env : Env) (old_calcs new_calcs : List (String × String))
    (new_sections : Sections) : List Card :=
  let renames := detect_rls_renames env old_calcs new_calcs
  (renames.map (renameCard env new_calcs)) ++
  removed_calc_cards env old_calcs new_calcs (renames.map Prod.fst) ++
  added_calc_cards env old_calcs new_calcs new_sections (renames.map Prod.snd)

/-- `build_cards` (source lines 3657–3804): the five non-calculation
passes (threading the registry for datasource summaries), then the
calculation pass. -/
def build_cards (env : Env) (old_sections new_sections : Sections) (reg : Registry) :
    Except Unit (List Card × Registry) := do
  let (c1, reg1) ← section_cards env "dashboards" "Dashboard"
    old_sections.dashboards new_sections.dashboards reg
  let (c2, reg2) ← section_cards env "worksheets" "Worksheet"
    old_sections.worksheets new_sections.worksheets reg1
  let (c3, reg3) ← section_cards env "parameters" "Parameter"
    old_sections.parameters new_sections.parameters reg2
  let (c4, reg4) ← section_cards env "stories" "Story"
    old_sections.stories new_sections.stories reg3
  let (c5, reg5) ← section_cards env "datasources" "Datasource"
    old_sections.datasources new_sections.datasources reg4
  .ok (c1 ++ c2 ++ c3 ++ c4 ++ c5 ++
    calc_cards env old_sections.calculations new_sections.calculations new_sections, reg5)

/-- The registry title built by `populate_change_registry_from_cards`
(source line 3841). -/
def card_title (c : Card) : String := c.icon ++ " " ++ c.title ++ " — " ++ c.name

/-- The per-card dispatch of `populate_change_registry_from_cards`
(source lines 3839–3901): parameters are appended directly without
merging; empty-bullet story cards are skipped. -/
def populate_step (c : Card) (reg : Registry) : Except Unit Registry :=
  if c.sect = "datasources" then
    register_change "datasource" c.name (card_title c) c.status c.bullets reg
  else if c.sect = "calculations" then
    register_change "datasource" "Unknown Datasource" ("Calculation — " ++ c.name)
      c.status c.bullets reg
  else if c.sect = "parameters" then
    .ok { reg with
          parameters :=
            updateDict "Parameters"
              (fun l => l ++ [⟨c.status, "Parameter — " ++ c.name, c.name, c.bullets⟩])
              reg.parameters }
  else if c.sect = "worksheets" then
    register_change "worksheet" c.name (card_title c) c.status c.bullets reg
  else if c.sect = "dashboards" then
    register_change "dashboard" c.name (card_title c) c.status c.bullets reg
  else if c.sect = "stories" then
    if c.bullets = [] then .ok reg
    else register_change "story" c.name (card_title c) c.status c.bullets reg
  else .ok reg

/-- `populate_change_registry_from_cards` (source lines 3833–3901). -/
def populate_change_registry_from_cards : List Card → Registry → Except Unit Registry
  | [], reg => .ok reg
  | c :: rest, reg => do
      let reg' ← populate_step c reg
      populate_change_registry_from_cards rest reg'

/-- A parsed document element: tag, insertion-ordered attributes,
optional text, children.  `ElementTree` tails are not modelled (no claim
depends on them). -/
inductive XElem where
  | mk (tag : String) (attrs : List (String × String)) (text : Option String)
      (children : List XElem)

/-- The element tag. -/
def XElem.tag : XElem → String
  | .mk t _ _ _ => t

/-- The element attributes. -/
def XElem.attrs : XElem → List (String × String)
  | .mk _ a _ _ => a

/-- The element text. -/
def XElem.text : XElem → Option String
  | .mk _ _ x _ => x

/-- The element children. -/
def XElem.children : XElem → List XElem
  | .mk _ _ _ c => c

/-- `e.attrib.get(k)`. -/
def attrGet (e : XElem) (k : String) : Option String :=
  (e.attrs.find? (fun p => p.1 == k)).map Prod.snd

/-- `a or b` on an optional string and a default (Python truthiness). -/
def pyOrStr (o : Option String) (d : String) : String :=
  if truthy o then o.getD "" else d

/-- XML escaping of one attribute-value character. -/
def escAttrChar (c : Char) : List Char :=
  if c = '&' then "&amp;".data
  else if c = '<' then "&lt;".data
  else if c = '>' then "&gt;".data
  else if c = '"' then "&quot;".data
  else [c]

/-- XML escaping of one text character. -/
def escTextChar (c : Char) : List Char :=
  if c = '&' then "&amp;".data
  else if c = '<' then "&lt;".data
  else if c = '>' then "&gt;".data
  else [c]

/-- XML escaping of an attribute value. -/
def escAttr (s : String) : String := ⟨s.data.flatMap escAttrChar⟩

/-- XML escaping of element text. -/
def escText (s : String) : String := ⟨s.data.flatMap escTextChar⟩

mutual

/-- `ET.tostring(e, encoding="unicode")`: standard ElementTree
serialization with short empty elements. -/
def xserialize : XElem → String
  | .mk tag attrs text children =>
      "<" ++ tag ++
      String.join (attrs.map (fun a => " " ++ a.1 ++ "=\"" ++ escAttr a.2 ++ "\"")) ++
      (if ¬ truthy text ∧ children.isEmpty then " />"
       else ">" ++ escText (text.getD "") ++ xserializeList children ++ "</" ++ tag ++ ">")

/-- Serialization of a child list in order. -/
def xserializeList : List XElem → String
  | [] => ""
  | c :: cs => xserialize c ++ xserializeList cs

end

mutual

/-- `root.iter()`: the element followed by its descendants in document
order. -/
def xiter : XElem → List XElem
  | .mk t a x cs => .mk t a x cs :: xiterList cs

/-- `iter` over a child list. -/
def xiterList : List XElem → List XElem
  | [] => []
  | c :: cs => xiter c ++ xiterList cs

end

/-- `e.find(t)`: first direct child with the given tag. -/
def findChild (e : XElem) (t : String) : Option XElem :=
  e.children.find? (fun c => c.tag == t)

/-- `e.find(".//" + t)`: first proper descendant with the given tag, in
document order. -/
def findDesc (e : XElem) (t : String) : Option XElem :=
  (xiterList e.children).find? (fun c => c.tag == t)

/-- Python `str.title()` restricted to alphabetic casing. -/
def pyTitleAux : Bool → List Char → List Char
  | _, [] => []
  | prevAlpha, c :: r =>
      (if chAlpha c then (if prevAlpha then chLower c else chUpper c) else c) ::
        pyTitleAux (chAlpha c) r

/-- Python `str.title()`. -/
def pyTitle (s : String) : String := ⟨pyTitleAux false s.data⟩

/-- The connection fallback of `resolve_datasource_name`
(source lines 1318–1329). -/
def resolve_ds_conn (e : XElem) : String :=
  match findDesc e "connection" with
  | some conn =>
      if truthy (attrGet conn "dbname") then (attrGet conn "dbname").getD ""
      else if truthy (attrGet conn "class") then
        pyTitle (⟨((attrGet conn "class").getD "").data.map (fun c => if c = Char.ofNat 45 then Char.ofNat 32 else c)⟩)
      else "Datasource"
  | none => "Datasource"

/-- `resolve_datasource_name` (source lines 1297–1329).  The source
serializes the element and re-parses it; for namespace-free elements the
round trip is the identity, so the fallback chain is modelled directly on
the element: caption → name → repository-location name → connection
dbname → humanized connection class → `"Datasource"`. -/
def resolve_datasource_name (e : XElem) : String :=
  if truthy (attrGet e "caption") then (attrGet e "caption").getD ""
  else if truthy (attrGet e "name") then (attrGet e "name").getD ""
  else
    match findDesc e "repository-location" with
    | some repo =>
        if truthy (attrGet repo "name") then (attrGet repo "name").getD ""
        else resolve_ds_conn e
    | none => resolve_ds_conn e

/-- Python dict assignment on an insertion-ordered association list:
overwrite in place, or append a fresh key. -/
def dinsert (k v : String) : List (String × String) → List (String × String)
  | [] => [(k, v)]
  | (k', v') :: r => if k' = k then (k, v) :: r else (k', v') :: dinsert k v r

/-- `e.tag.lower().split("}")[-1]`. -/
def tagKey (e : XElem) : String := ⟨((pyLower e.tag).data.reverse.takeWhile (fun c => c ≠ braceCh)).reverse⟩

/-- The per-element classification of `extract_sections`
(source lines 913–953). -/
def extract_step (out : Sections) (e : XElem) : Sections :=
  let tag := tagKey e
  if tag = "dashboard" then
    let name := (attrGet e "name").getD "unnamed"
    let dtype := pyLower ((attrGet e "type").getD "")
    if dtype = "storyboard" then
      { out with stories := dinsert name (xserialize e) out.stories }
    else
      { out with dashboards := dinsert name (xserialize e) out.dashboards }
  else if tag = "worksheet" then
    { out with worksheets := dinsert ((attrGet e "name").getD "unnamed") (xserialize e) out.worksheets }
  else if tag = "story" then
    { out with stories := dinsert ((attrGet e "name").getD "Story") (xserialize e) out.stories }
  else if tag = "datasource" then
    { out with datasources := dinsert (resolve_datasource_name e) (xserialize e) out.datasources }
  else if tag = "column" then
    let name := pyOrStr (attrGet e "caption") (pyOrStr (attrGet e "name") "Unnamed Column")
    let is_parameter := truthy (attrGet e "param-domain-type") ||
      (findChild e "range").isSome || (findChild e "list").isSome
    let has_calculation := (findChild e "calculation").isSome
    if is_parameter then
      { out with parameters := dinsert name (xserialize e) out.parameters }
    else if has_calculation then
      { out with calculations := dinsert name (xserialize e) out.calculations }
    else out
  else out

/-- `extract_sections` (source lines 901–955) composed with the
`parse_twb` failure mode (source lines 705–709): a tree that failed to
parse (`none`) yields the empty section map. -/
def extract_sections : Option XElem → Sections
  | none => emptySections
  | some root => (xiter root).foldl extract_step emptySections

/-- The full comparison run of `main` (source lines 5135–5152): parse
results in, extraction, card building, registry population, from a fresh
registry. -/
def full_compare (env : Env) (oldTree newTree : Option XElem) : Except Unit Registry := do
  let (cards, reg1) ← build_cards env (extract_sections oldTree) (extract_sections newTree)
    emptyRegistry
  populate_change_registry_from_cards cards reg1

/-- The bucket a registration targets, for observation in theorems. -/
def levelBucket (reg : Registry) (level parent : String) : List ChangeEntry :=
  if level = "workbook" then reg.workbook
  else if level = "datasource" then (alookup reg.datasources parent).getD []
  else if level = "worksheet" then (alookup reg.worksheets parent).getD []
  else if level = "dashboard" then (alookup reg.dashboards parent).getD []
  else if level = "parameter" then (alookup reg.parameters parent).getD []
  else if level = "story" then (alookup reg.stories parent).getD []
  else []

/-- The non-duplication invariant of one bucket: at most one record per
object name, except datasource-filter records. -/
def BucketOK (l : List ChangeEntry) : Prop :=
  l.Pairwise (fun a b => a.obj = b.obj → a.obj = "__datasource_filters__")

/-- The invariant over a parent dict. -/
def DictOK (d : List (String × List ChangeEntry)) : Prop := ∀ p ∈ d, BucketOK p.2

/-- The registry-wide non-duplication invariant of §4.5. -/
def RegistryOK (reg : Registry) : Prop :=
  BucketOK reg.workbook ∧ DictOK reg.datasources ∧ DictOK reg.calculations ∧
  DictOK reg.parameters ∧ DictOK reg.worksheets ∧ DictOK reg.dashboards ∧
  DictOK reg.stories

/-- The obligations the population pass needs from the direct parameter
appends of `populate_change_registry_from_cards`: the parameter card
names are pairwise distinct (up to the filter sentinel) and absent from
the current Parameters bucket. -/
def ParamsOK (cards : List Card) (reg : Registry) : Prop :=
  ((cards.filter (fun c => c.sect == "parameters")).map Card.name).Pairwise
    (fun a b => a = b → a = "__datasource_filters__") ∧
  ∀ a ∈ (cards.filter (fun c => c.sect == "parameters")).map Card.name,
    ∀ e ∈ (alookup reg.parameters "Parameters").getD [], e.obj = a →
      a = "__datasource_filters__"

/-- The dedupe key of a bullet (a `None` bullet never survives the
dedupe, its key is irrelevant). -/
def keyOf : Option String → String
  | none => ""
  | some b => pyLower (simplify_visual_bullet b)

/-- Swapping an added/removed card between the two comparison
directions. -/
def flipCard (sec label : String) (c : Card) : Card :=
  if c.status = "removed" then addedCard sec label c.name
  else if c.status = "added" then removedCard sec label c.name
  else c

/-- One diff line that is publish-time noise: a repository-location or
content-url mention, or no meaningful keyword at all. -/
def NoiseLine (line : String) : Prop :=
  strIn "repository-location" line = true ∨ strIn "content-url" line = true ∨
  ∀ k ∈ meaningful_keywords, strIn k (pyLower line) = false

/-- One record grew monotonically: same object, bullets only extended
(with a deduplicated result), status length only grew. -/
def EntryExt (e eNew : ChangeEntry) : Prop :=
  eNew.obj = e.obj ∧ (∀ x ∈ e.bullets, x ∈ eNew.bullets) ∧
  (eNew.bullets.Nodup ∨ eNew.bullets = e.bullets) ∧
  e.status.length ≤ eNew.status.length

/-- One bucket grew monotonically: the original records extended in
place, new records appended at the end. -/
def BucketExt (B C : List ChangeEntry) : Prop :=
  ∃ C₀ ext, C = C₀ ++ ext ∧ List.Forall₂ EntryExt B C₀

/-- One parent dict grew monotonically. -/
def DictExt (d dNew : List (String × List ChangeEntry)) : Prop :=
  ∃ d₀ ext, dNew = d₀ ++ ext ∧
    List.Forall₂ (fun p q => p.1 = q.1 ∧ BucketExt p.2 q.2) d d₀

/-- The whole registry grew monotonically. -/
def RegExt (s t : Registry) : Prop :=
  BucketExt s.workbook t.workbook ∧ DictExt s.datasources t.datasources ∧
  DictExt s.calculations t.calculations ∧ DictExt s.parameters t.parameters ∧
  DictExt s.worksheets t.worksheets ∧ DictExt s.dashboards t.dashboards ∧
  DictExt s.stories t.stories

/-- A neutral environment for concrete evaluations: empty diffs and
summaries, no formulas. -/
def envN : Env :=
  ⟨fun _ _ => "", fun _ _ _ => [], fun _ _ _ => [], fun _ => none,
   fun _ _ => false, fun _ _ => []⟩

/-- An environment whose fragments all carry one identical RLS formula. -/
def envRls : Env := { envN with formulaOf := fun _ => some "ISMEMBEROF(Group)" }

/-- An environment modelling `extract_formula` on a `calculation` element
with no formula attribute and no text: Python returns the falsy `""`. -/
def envEF : Env := { envN with formulaOf := fun _ => some "" }

/-- An environment whose external diff reports only a
repository-location change. -/
def envRepo : Env := { envN with diffText := fun _ _ => "repository-location: id changed" }

/-- A dashboard card whose bullets are exactly the layout-only facts of
the spec scenario, carrying the lowercase `"modified"` status that
`build_cards` produces. -/
def c2Card : Card :=
  ⟨"modified", "🟨", "dashboards", "Modified Dashboard", "D",
   [some "Zone width changed", some "Zone height changed",
    some "Container position changed"]⟩

/-- An old document tree holding one calculation column whose
`calculation` element carries no formula. -/
def c8OldTree : XElem :=
  .mk "workbook" [] none
    [.mk "column" [("name", "X")] none [.mk "calculation" [("class", "tableau")] none []]]

/-- A new document tree with no entities. -/
def c8NewTree : XElem := .mk "workbook" [] none []

/-- A new-side section map holding one parameter. -/
def c9Secs : Sections := { emptySections with parameters := [("P1", "x")] }

/-- The registry populated from one removed-worksheet card. -/
def c9RegW : Registry :=
  { emptyRegistry with
    worksheets :=
      [("W", [⟨"removed", "🟥 Removed Worksheet — W", "W",
        [some ("Worksheet " ++ quoteCh ++ "W" ++ quoteCh ++ " removed")]⟩])] }

/-- A registry record already stored for worksheet object `T`. -/
def c5Entry : ChangeEntry := ⟨"modified", "T", "T", [some "b0"]⟩

/-- A registry whose worksheet bucket under parent `P` holds `c5Entry`. -/
def c5Reg : Registry := { emptyRegistry with worksheets := [("P", [c5Entry])] }

/-- The registry after registering one more `T` record into `c5Reg`: the
existing record absorbed the new bullet. -/
def c5Reg1 : Registry :=
  { emptyRegistry with
    worksheets := [("P", [⟨"modified", "T", "T", [some "b0", some "b1"]⟩])] }

/-- The registry after appending one datasource-filter record to the
empty registry. -/
def c5FReg1 : Registry :=
  { emptyRegistry with
    datasources :=
      [("DS", [⟨"info", "Datasource Filters", "__datasource_filters__", [some "f"]⟩])] }

/-- An old section map holding one worksheet. -/
def c5OldSecs : Sections := { emptySections with worksheets := [("W", "x")] }

/-- The registry produced by populating the single removed-worksheet
card that comparing `c5OldSecs` against the empty sections yields. -/
def c5RegPop : Registry :=
  { emptyRegistry with
    worksheets :=
      [("W", [⟨"removed", "🟥 Removed Worksheet — W", "W",
        [some ("Worksheet " ++ quoteCh ++ "W" ++ quoteCh ++ " removed")]⟩])] }

theorem mem_dedupFirstAux [DecidableEq α] (seen l : List α) (x : α) :
    x ∈ dedupFirstAux seen l ↔ x ∈ l ∧ x ∉ seen := by
  induction l generalizing seen with
  | nil => simp [dedupFirstAux]
  | cons a t ih =>
    by_cases ha : a ∈ seen
    · simp only [dedupFirstAux, if_pos ha, ih, List.mem_cons]
      constructor
      · rintro ⟨hx, hn⟩; exact ⟨Or.inr hx, hn⟩
      · rintro ⟨hx | hx, hn⟩
        · exact absurd (hx ▸ ha) hn
        · exact ⟨hx, hn⟩
    · simp only [dedupFirstAux, if_neg ha, List.mem_cons, ih]
      constructor
      · rintro (rfl | ⟨hx, hn⟩)
        · exact ⟨Or.inl rfl, ha⟩
        · exact ⟨Or.inr hx, fun hs => hn (Or.inr hs)⟩
      · rintro ⟨rfl | hx, hn⟩
        · exact Or.inl rfl
        · by_cases hxa : x = a
          · exact Or.inl hxa
          · exact Or.inr ⟨hx, by simp [hxa, hn]⟩

theorem nodup_dedupFirstAux [DecidableEq α] (seen l : List α) :
    (dedupFirstAux seen l).Nodup := by
  induction l generalizing seen with
  | nil => simp [dedupFirstAux]
  | cons a t ih =>
    by_cases ha : a ∈ seen
    · simpa [dedupFirstAux, ha] using ih seen
    · simp only [dedupFirstAux, if_neg ha, List.nodup_cons]
      refine ⟨fun hmem => ?_, ih (a :: seen)⟩
      exact ((mem_dedupFirstAux _ _ _).1 hmem).2 (List.mem_cons_self a seen)

theorem nodup_dedupFirst [DecidableEq α] (l : List α) : (dedupFirst l).Nodup :=
  nodup_dedupFirstAux [] l

theorem mem_dedupFirst [DecidableEq α] (l : List α) (x : α) :
    x ∈ dedupFirst l ↔ x ∈ l := by
  simp [dedupFirst, mem_dedupFirstAux]

theorem dedupFirstAux_eq_self [DecidableEq α] (seen l : List α) (hn : l.Nodup)
    (hd : ∀ x ∈ l, x ∉ seen) : dedupFirstAux seen l = l := by
  induction l generalizing seen with
  | nil => simp [dedupFirstAux]
  | cons a t ih =>
    have ha : a ∉ seen := hd a (List.mem_cons_self a t)
    simp only [dedupFirstAux, if_neg ha, List.cons.injEq, true_and]
    refine ih (a :: seen) (List.Nodup.of_cons hn) fun x hx => ?_
    intro hmem
    rcases List.mem_cons.1 hmem with rfl | hmem
    · exact (List.nodup_cons.1 hn).1 hx
    · exact hd x (List.mem_cons_of_mem _ hx) hmem

theorem dedupFirstAux_nil_of_seen [DecidableEq α] (seen s : List α)
    (h : ∀ x ∈ s, x ∈ seen) : dedupFirstAux seen s = [] := by
  induction s with
  | nil => simp [dedupFirstAux]
  | cons a t ih =>
    have := h a (List.mem_cons_self a t)
    simp only [dedupFirstAux, if_pos this]
    exact ih fun x hx => h x (List.mem_cons_of_mem _ hx)

theorem dedupFirstAux_append_absorb [DecidableEq α] (seen l s : List α)
    (h : ∀ x ∈ s, x ∈ seen ∨ x ∈ l) :
    dedupFirstAux seen (l ++ s) = dedupFirstAux seen l := by
  induction l generalizing seen with
  | nil =>
    simp only [List.nil_append, dedupFirstAux]
    exact dedupFirstAux_nil_of_seen seen s fun x hx =>
      (h x hx).resolve_right (by simp)
  | cons a t ih =>
    by_cases ha : a ∈ seen
    · simp only [List.cons_append, dedupFirstAux, if_pos ha]
      refine ih seen fun x hx => ?_
      rcases h x hx with hs | hl
      · exact Or.inl hs
      · rcases List.mem_cons.1 hl with rfl | hl
        · exact Or.inl ha
        · exact Or.inr hl
    · simp only [List.cons_append, dedupFirstAux, if_neg ha]
      congr 1
      refine ih (a :: seen) fun x hx => ?_
      rcases h x hx with hs | hl
      · exact Or.inl (List.mem_cons_of_mem _ hs)
      · rcases List.mem_cons.1 hl with rfl | hl
        · exact Or.inl (List.mem_cons_self _ _)
        · exact Or.inr hl

theorem dedupFirst_absorb [DecidableEq α] (l s : List α) (hn : l.Nodup)
    (h : ∀ x ∈ s, x ∈ l) : dedupFirst (l ++ s) = l := by
  unfold dedupFirst
  rw [dedupFirstAux_append_absorb [] l s fun x hx => Or.inr (h x hx)]
  exact dedupFirstAux_eq_self [] l hn (by simp)

theorem alookup_updateDict_self (k : String) (f : List ChangeEntry → List ChangeEntry)
    (d : List (String × List ChangeEntry)) :
    alookup (updateDict k f d) k = some (f ((alookup d k).getD [])) := by
  induction d with
  | nil => simp [updateDict, alookup]
  | cons p r ih =>
    obtain ⟨k', v⟩ := p
    by_cases hk : k' = k
    · subst hk; simp [updateDict, alookup]
    · simp [updateDict, alookup, hk, ih]

theorem alookup_updateDict_ne (k k' : String) (f : List ChangeEntry → List ChangeEntry)
    (d : List (String × List ChangeEntry)) (h : k' ≠ k) :
    alookup (updateDict k f d) k' = alookup d k' := by
  induction d with
  | nil =>
    simp only [updateDict, alookup]
    rw [if_neg fun hc => h hc.symm]
  | cons p r ih =>
    obtain ⟨k'', v⟩ := p
    by_cases hk : k'' = k
    · subst hk
      simp only [updateDict, if_pos rfl, alookup]
      rw [if_neg fun hc => h hc.symm, if_neg fun hc => h hc.symm]
    · simp only [updateDict, if_neg hk, alookup, ih]

theorem updateDict_comp (k : String) (f g : List ChangeEntry → List ChangeEntry)
    (d : List (String × List ChangeEntry)) :
    updateDict k f (updateDict k g d) = updateDict k (fun v => f (g v)) d := by
  induction d with
  | nil => simp [updateDict]
  | cons p r ih =>
    obtain ⟨k', v⟩ := p
    by_cases hk : k' = k
    · subst hk; simp [updateDict]
    · simp [updateDict, hk, ih]

theorem updateDict_congr (k : String) (f g : List ChangeEntry → List ChangeEntry)
    (d : List (String × List ChangeEntry)) (h : ∀ v, f v = g v) :
    updateDict k f d = updateDict k g d := by
  induction d with
  | nil => simp [updateDict, h]
  | cons p r ih =>
    obtain ⟨k', v⟩ := p
    by_cases hk : k' = k
    · subst hk; simp [updateDict, h]
    · simp [updateDict, hk, ih]

theorem dedupe_aux_props (bs : List (Option String)) :
    ∀ seen r, dedupe_visual_bullets_aux seen bs = .ok r →
      (∀ x ∈ r, x ≠ none ∧ keyOf x ∉ seen ∧ x ∈ bs) ∧ (r.map keyOf).Nodup := by
  induction bs with
  | nil =>
    intro seen r h
    simp only [dedupe_visual_bullets_aux] at h
    cases h
    simp
  | cons b t ih =>
    intro seen r h
    match b with
    | none => simp [dedupe_visual_bullets_aux] at h
    | some b =>
      simp only [dedupe_visual_bullets_aux] at h
      by_cases hk : pyLower (simplify_visual_bullet b) ∈ seen
      · rw [if_pos hk] at h
        obtain ⟨h1, h2⟩ := ih seen r h
        exact ⟨fun x hx => ⟨(h1 x hx).1, (h1 x hx).2.1,
          List.mem_cons_of_mem _ (h1 x hx).2.2⟩, h2⟩
      · rw [if_neg hk] at h
        cases hrec : dedupe_visual_bullets_aux (pyLower (simplify_visual_bullet b) :: seen) t with
        | error e => rw [hrec] at h; simp [Except.map] at h
        | ok r' =>
          rw [hrec] at h
          simp only [Except.map] at h
          cases h
          obtain ⟨h1, h2⟩ := ih _ r' hrec
          constructor
          · intro x hx
            rcases List.mem_cons.1 hx with rfl | hx
            · exact ⟨by simp, by simpa [keyOf] using hk, List.mem_cons_self _ _⟩
            · refine ⟨(h1 x hx).1, fun hs => (h1 x hx).2.1 (List.mem_cons_of_mem _ hs),
                List.mem_cons_of_mem _ (h1 x hx).2.2⟩
          · simp only [List.map_cons, List.nodup_cons]
            refine ⟨fun hmem => ?_, h2⟩
            obtain ⟨y, hy, hky⟩ := List.mem_map.1 hmem
            have := (h1 y hy).2.1
            rw [hky] at this
            exact this (by simp [keyOf])

theorem dedupe_ok_nodup (bs r : List (Option String))
    (h : dedupe_visual_bullets bs = .ok r) : r.Nodup := by
  obtain ⟨_, h2⟩ := dedupe_aux_props bs [] r h
  exact h2.of_map keyOf

theorem dedupe_ok_mem (bs r : List (Option String))
    (h : dedupe_visual_bullets bs = .ok r) : ∀ x ∈ r, x ∈ bs := by
  obtain ⟨h1, _⟩ := dedupe_aux_props bs [] r h
  exact fun x hx => (h1 x hx).2.2

theorem dedupe_all_some (bs : List String) :
    ∀ seen, ∃ r, dedupe_visual_bullets_aux seen (bs.map some) = .ok r := by
  induction bs with
  | nil => intro seen; exact ⟨[], rfl⟩
  | cons b t ih =>
    intro seen
    simp only [List.map_cons, dedupe_visual_bullets_aux]
    by_cases hk : pyLower (simplify_visual_bullet b) ∈ seen
    · rw [if_pos hk]; exact ih seen
    · rw [if_neg hk]
      obtain ⟨r, hr⟩ := ih (pyLower (simplify_visual_bullet b) :: seen)
      exact ⟨some b :: r, by rw [hr]; rfl⟩

theorem layoutAll_all_some (bs : List String) : ∃ v, layoutAll (bs.map some) = .ok v := by
  induction bs with
  | nil => exact ⟨true, rfl⟩
  | cons b t ih =>
    simp only [List.map_cons, layoutAll]
    by_cases hk : layout_keywords.any (fun k => strIn k (pyLower b))
    · rw [if_pos hk]; exact ih
    · rw [if_neg hk]; exact ⟨false, rfl⟩

theorem effStatusOf_cases (level status : String) (bullets : List (Option String))
    (s' : String) (h : effStatusOf level status bullets = .ok s') :
    s' = status ∨ s' = "Additional" := by
  unfold effStatusOf at h
  by_cases hc : level = "dashboard" ∧ status = "Modified" ∧ bullets ≠ []
  · rw [if_pos hc] at h
    cases hla : layoutAll bullets with
    | error e => rw [hla] at h; simp [Except.map] at h
    | ok a =>
      rw [hla] at h
      simp only [Except.map] at h
      cases h
      cases a
      · exact Or.inl rfl
      · exact Or.inr rfl
  · rw [if_neg hc] at h
    cases h
    exact Or.inl rfl

theorem effStatusOf_all_some (level status : String) (bs : List String) :
    ∃ s', effStatusOf level status (bs.map some) = .ok s' := by
  unfold effStatusOf
  by_cases hc : level = "dashboard" ∧ status = "Modified" ∧ bs.map some ≠ []
  · rw [if_pos hc]
    obtain ⟨v, hv⟩ := layoutAll_all_some bs
    exact ⟨if v then "Additional" else status, by rw [hv]; rfl⟩
  · rw [if_neg hc]; exact ⟨status, rfl⟩

theorem exbind_ok {ε α β : Type} (a : α) (f : α → Except ε β) :
    (Except.ok a : Except ε α) >>= f = f a := rfl

theorem exbind_err {ε α β : Type} (e : ε) (f : α → Except ε β) :
    (Except.error e : Except ε α) >>= f = Except.error e := rfl

theorem mergeBucket_nil (o effS : String) (shown : List (Option String))
    (entry : ChangeEntry) : mergeBucket o effS shown entry [] = [entry] := rfl

theorem mergeBucket_cons_match (o effS : String) (shown : List (Option String))
    (entry e : ChangeEntry) (rest : List ChangeEntry) (he : e.obj = o) :
    mergeBucket o effS shown entry (e :: rest) =
      { e with
        bullets := dedupFirst (e.bullets ++ shown),
        status := if e.status.length < effS.length then effS else e.status } :: rest := by
  simp [mergeBucket, he]

theorem mergeBucket_cons_miss (o effS : String) (shown : List (Option String))
    (entry e : ChangeEntry) (rest : List ChangeEntry) (he : ¬ e.obj = o) :
    mergeBucket o effS shown entry (e :: rest) =
      e :: mergeBucket o effS shown entry rest := by
  simp [mergeBucket, he]

theorem mergeBucket_absorb (o effS tt : String) (shown : List (Option String))
    (hs : shown.Nodup) (ht : pyStrip effS = effS) :
    ∀ B, mergeBucket o effS shown ⟨pyStrip effS, tt, o, shown⟩
        (mergeBucket o effS shown ⟨pyStrip effS, tt, o, shown⟩ B) =
      mergeBucket o effS shown ⟨pyStrip effS, tt, o, shown⟩ B := by
  intro B
  induction B with
  | nil =>
    rw [mergeBucket_nil,
      mergeBucket_cons_match o effS shown ⟨pyStrip effS, tt, o, shown⟩
        ⟨pyStrip effS, tt, o, shown⟩ [] rfl]
    rw [show (⟨pyStrip effS, tt, o, shown⟩ : ChangeEntry).bullets = shown from rfl,
      dedupFirst_absorb shown shown hs (fun x hx => hx)]
    simp [ht]
  | cons e rest ih =>
    by_cases he : e.obj = o
    · rw [mergeBucket_cons_match o effS shown _ e rest he]
      rw [mergeBucket_cons_match o effS shown _
        ({ e with
           bullets := dedupFirst (e.bullets ++ shown),
           status := if e.status.length < effS.length then effS else e.status }) rest he]
      have hb : dedupFirst (dedupFirst (e.bullets ++ shown) ++ shown) =
          dedupFirst (e.bullets ++ shown) := by
        refine dedupFirst_absorb _ _ (nodup_dedupFirst _) fun x hx => ?_
        exact (mem_dedupFirst _ _).2 (List.mem_append_right _ hx)
      by_cases hl : e.status.length < effS.length
      · simp [hl, hb]
      · simp [hl, hb]
    · rw [mergeBucket_cons_miss o effS shown _ e rest he,
        mergeBucket_cons_miss o effS shown _ e _ he, ih]

theorem applyMerge_idem (level parent : String) (m : List ChangeEntry → List ChangeEntry)
    (hm : ∀ v, m (m v) = m v) (reg : Registry) :
    applyMerge level parent m (applyMerge level parent m reg) =
      applyMerge level parent m reg := by
  unfold applyMerge
  by_cases h1 : level = "workbook"
  · simp [h1, hm]
  by_cases h2 : level = "datasource"
  · simp [h1, h2, updateDict_comp]
    exact updateDict_congr _ _ _ _ hm
  by_cases h3 : level = "worksheet"
  · simp [h1, h2, h3, updateDict_comp]
    exact updateDict_congr _ _ _ _ hm
  by_cases h4 : level = "dashboard"
  · simp [h1, h2, h3, h4, updateDict_comp]
    exact updateDict_congr _ _ _ _ hm
  by_cases h5 : level = "parameter"
  · simp [h1, h2, h3, h4, h5, updateDict_comp]
    exact updateDict_congr _ _ _ _ hm
  by_cases h6 : level = "story"
  · simp [h1, h2, h3, h4, h5, h6, updateDict_comp]
    exact updateDict_congr _ _ _ _ hm
  · simp [h1, h2, h3, h4, h5, h6]

theorem register_absorb (level parent title status : String)
    (bullets : List (Option String)) (reg r1 : Registry)
    (hst : pyStrip status = status)
    (hfl : ¬ (level = "datasource" ∧ title = "Datasource Filters"))
    (h : register_change level parent title status bullets reg = .ok r1) :
    register_change level parent title status bullets r1 = .ok r1 := by
  unfold register_change at h ⊢
  rw [if_neg hfl] at h ⊢
  cases heff : effStatusOf level status bullets with
  | error e =>
    rw [heff, exbind_err] at h
    cases h
  | ok effS =>
    rw [heff] at h
    rw [exbind_ok] at h ⊢
    cases hded : dedupe_visual_bullets bullets with
    | error e =>
      rw [hded, exbind_err] at h
      cases h
    | ok clean =>
      rw [hded] at h
      rw [exbind_ok] at h ⊢
      cases h
      have hstrip : pyStrip effS = effS := by
        rcases effStatusOf_cases level status bullets effS heff with rfl | rfl
        · exact hst
        · decide
      have hnd : (shownOf title clean).Nodup := by
        unfold shownOf
        by_cases hc : strIn "Calculation" title = true
        · simpa [hc] using dedupe_ok_nodup bullets clean hded
        · simp only [hc, if_false]
          exact (dedupe_ok_nodup bullets clean hded).sublist (List.take_sublist _ _)
      exact congrArg Except.ok (applyMerge_idem level parent _
        (mergeBucket_absorb (objNameOf title) effS (pyStrip title) (shownOf title clean)
          hnd hstrip) reg)

theorem applyMerge_workbook (parent : String) (f : List ChangeEntry → List ChangeEntry)
    (reg : Registry) : applyMerge "workbook" parent f reg =
      { reg with workbook := f reg.workbook } := by
  unfold applyMerge
  rw [if_pos rfl]

theorem applyMerge_datasource (parent : String) (f : List ChangeEntry → List ChangeEntry)
    (reg : Registry) : applyMerge "datasource" parent f reg =
      { reg with datasources := updateDict parent f reg.datasources } := by
  unfold applyMerge
  rw [if_neg (by decide), if_pos rfl]

theorem applyMerge_worksheet (parent : String) (f : List ChangeEntry → List ChangeEntry)
    (reg : Registry) : applyMerge "worksheet" parent f reg =
      { reg with worksheets := updateDict parent f reg.worksheets } := by
  unfold applyMerge
  rw [if_neg (by decide), if_neg (by decide), if_pos rfl]

theorem applyMerge_dashboard (parent : String) (f : List ChangeEntry → List ChangeEntry)
    (reg : Registry) : applyMerge "dashboard" parent f reg =
      { reg with dashboards := updateDict parent f reg.dashboards } := by
  unfold applyMerge
  rw [if_neg (by decide), if_neg (by decide), if_neg (by decide), if_pos rfl]

theorem applyMerge_parameter (parent : String) (f : List ChangeEntry → List ChangeEntry)
    (reg : Registry) : applyMerge "parameter" parent f reg =
      { reg with parameters := updateDict parent f reg.parameters } := by
  unfold applyMerge
  rw [if_neg (by decide), if_neg (by decide), if_neg (by decide), if_neg (by decide),
    if_pos rfl]

theorem applyMerge_story (parent : String) (f : List ChangeEntry → List ChangeEntry)
    (reg : Registry) : applyMerge "story" parent f reg =
      { reg with stories := updateDict parent f reg.stories } := by
  unfold applyMerge
  rw [if_neg (by decide), if_neg (by decide), if_neg (by decide), if_neg (by decide),
    if_neg (by decide), if_pos rfl]

/-- C6: the claim fails as stated.  Registering the same record twice with
the whitespace-padded status `"a "` does not leave the registry at the
single-registration state: the first call stores the stripped status
`"a"`, the second call's merge compares the stored length 1 against the
unstripped length 2 and overwrites the status with `"a "`. -/
theorem c6_counterexample :
    (do
      let r1 ← register_change "worksheet" "P" "T" "a " [some "b"] emptyRegistry
      register_change "worksheet" "P" "T" "a " [some "b"] r1)
    ≠ register_change "worksheet" "P" "T" "a " [some "b"] emptyRegistry := by decide

/-- C6 (amended): registering the same `(level, parent, title, status,
bullets)` twice, from any starting registry, equals a single
registration, provided the status string carries no surrounding
whitespace (`status.strip() == status`); the datasource-filter case
instead appends one more record on the second call. -/
theorem c6_register_idempotent :
    (∀ level parent title status bullets reg r1,
      pyStrip status = status →
      ¬ (level = "datasource" ∧ title = "Datasource Filters") →
      register_change level parent title status bullets reg = .ok r1 →
      register_change level parent title status bullets r1 = .ok r1) ∧
    (∀ parent status bullets reg r1 r2,
      register_change "datasource" parent "Datasource Filters" status bullets reg = .ok r1 →
      register_change "datasource" parent "Datasource Filters" status bullets r1 = .ok r2 →
      (alookup r2.datasources parent).getD [] =
        (alookup r1.datasources parent).getD [] ++
          [filterEntry status "Datasource Filters" bullets]) := by
  constructor
  · exact fun level parent title status bullets reg r1 hst hfl h =>
      register_absorb level parent title status bullets reg r1 hst hfl h
  · intro parent status bullets reg r1 r2 h1 h2
    unfold register_change at h1 h2
    rw [if_pos ⟨rfl, rfl⟩] at h1 h2
    cases h1
    cases h2
    simp [alookup_updateDict_self]

/-- C6 witness: a trimmed-status registration applied twice at a concrete
input. -/
theorem c6_register_idempotent_witness :
    register_change "worksheet" "P" "T" "modified" [some "b"]
        ⟨[], [], [], [], [("P", [⟨"modified", "T", "T", [some "b"]⟩])], [], []⟩ =
      .ok ⟨[], [], [], [], [("P", [⟨"modified", "T", "T", [some "b"]⟩])], [], []⟩ :=
  c6_register_idempotent.1 "worksheet" "P" "T" "modified" [some "b"] emptyRegistry
    ⟨[], [], [], [], [("P", [⟨"modified", "T", "T", [some "b"]⟩])], [], []⟩
    (by decide) (by decide) (by decide)

/-- C2: the noise-suppression claim is right and the code is wrong.  The
pipeline registers dashboard cards with the lowercase status
`"modified"` that `build_cards` produces, while the downgrade in
`register_change` tests for the capitalized `"Modified"`, so a
container-view pair whose only differences are zone width, zone height
and container position is registered as `"modified"` (first conjunct),
even though the downgrade logic itself — exercised with the capitalized
status it expects — would produce `"Additional"` on exactly these
bullets (second conjunct). -/
theorem c2_layout_downgrade_dead :
    (populate_change_registry_from_cards [c2Card] emptyRegistry).map
        (fun r => ((alookup r.dashboards "D").getD []).map ChangeEntry.status) =
      .ok ["modified"] ∧
    (register_change "dashboard" "D" "🟨 Modified Dashboard — D" "Modified" c2Card.bullets
        emptyRegistry).map
        (fun r => ((alookup r.dashboards "D").getD []).map ChangeEntry.status) =
      .ok ["Additional"] :=
  ⟨by decide, by decide⟩

/-- C10: a registration whose title does not mention `"Calculation"`
(and is not the append-only datasource-filter case) stores only the
first 6 deduplicated bullets; a title mentioning `"Calculation"` keeps
them all. -/
theorem c10_bullet_cap :
    ∀ level parent title status bullets clean r1,
      level ∈ ["workbook", "datasource", "worksheet", "dashboard", "parameter", "story"] →
      ¬ (level = "datasource" ∧ title = "Datasource Filters") →
      dedupe_visual_bullets bullets = .ok clean →
      register_change level parent title status bullets emptyRegistry = .ok r1 →
      (levelBucket r1 level parent).map ChangeEntry.bullets =
        [if strIn "Calculation" title then clean else clean.take 6] := by
  intro level parent title status bullets clean r1 hmem hfl hclean h
  unfold register_change at h
  rw [if_neg hfl] at h
  cases heff : effStatusOf level status bullets with
  | error e => rw [heff, exbind_err] at h; cases h
  | ok effS =>
    rw [heff, exbind_ok, hclean, exbind_ok] at h
    cases h
    simp only [List.mem_cons, List.not_mem_nil, or_false] at hmem
    have hshown : shownOf title clean =
        if strIn "Calculation" title then clean else clean.take 6 := rfl
    rcases hmem with rfl | rfl | rfl | rfl | rfl | rfl
    · rw [applyMerge_workbook]
      unfold levelBucket
      rw [if_pos rfl]
      simp [mergeBucket_nil, hshown, emptyRegistry]
    · rw [applyMerge_datasource]
      unfold levelBucket
      rw [if_neg (by decide), if_pos rfl]
      simp only [alookup_updateDict_self]
      simp [alookup, mergeBucket_nil, hshown, emptyRegistry]
    · rw [applyMerge_worksheet]
      unfold levelBucket
      rw [if_neg (by decide), if_neg (by decide), if_pos rfl]
      simp only [alookup_updateDict_self]
      simp [alookup, mergeBucket_nil, hshown, emptyRegistry]
    · rw [applyMerge_dashboard]
      unfold levelBucket
      rw [if_neg (by decide), if_neg (by decide), if_neg (by decide), if_pos rfl]
      simp only [alookup_updateDict_self]
      simp [alookup, mergeBucket_nil, hshown, emptyRegistry]
    · rw [applyMerge_parameter]
      unfold levelBucket
      rw [if_neg (by decide), if_neg (by decide), if_neg (by decide), if_neg (by decide),
        if_pos rfl]
      simp only [alookup_updateDict_self]
      simp [alookup, mergeBucket_nil, hshown, emptyRegistry]
    · rw [applyMerge_story]
      unfold levelBucket
      rw [if_neg (by decide), if_neg (by decide), if_neg (by decide), if_neg (by decide),
        if_neg (by decide), if_pos rfl]
      simp only [alookup_updateDict_self]
      simp [alookup, mergeBucket_nil, hshown, emptyRegistry]

/-- C10 witness: seven distinct bullets under a non-Calculation title
keep only the first six. -/
theorem c10_bullet_cap_witness :
    (levelBucket
        (⟨[], [], [], [],
          [("P", [⟨"modified", "T", "T",
            [some "b1", some "b2", some "b3", some "b4", some "b5", some "b6"]⟩])],
          [], []⟩ : Registry) "worksheet" "P").map ChangeEntry.bullets =
      [if strIn "Calculation" "T" then
          [some "b1", some "b2", some "b3", some "b4", some "b5", some "b6", some "b7"]
        else
          [some "b1", some "b2", some "b3", some "b4", some "b5", some "b6",
            some "b7"].take 6] :=
  c10_bullet_cap "worksheet" "P" "T" "modified"
    [some "b1", some "b2", some "b3", some "b4", some "b5", some "b6", some "b7"]
    [some "b1", some "b2", some "b3", some "b4", some "b5", some "b6", some "b7"]
    ⟨[], [], [], [],
      [("P", [⟨"modified", "T", "T",
        [some "b1", some "b2", some "b3", some "b4", some "b5", some "b6"]⟩])],
      [], []⟩
    (by decide) (by decide) (by decide) (by decide)

/-- C1: the claim fails as stated.  With the same RLS formula under the
two old names `A`, `B` and the single new name `C`, the detector emits
renames for BOTH old names (each old name sees exactly one new-side
match, and uniqueness is never checked on the old side), and neither old
name falls back to a removal card — the claim requires no rename for
either. -/
theorem c1_counterexample :
    detect_rls_renames envRls [("A", "xa"), ("B", "xb")] [("C", "xc")] =
      [("A", "C"), ("B", "C")] ∧
    removed_calc_cards envRls [("A", "xa"), ("B", "xb")] [("C", "xc")]
      ((detect_rls_renames envRls [("A", "xa"), ("B", "xb")] [("C", "xc")]).map
        Prod.fst) = [] :=
  ⟨by decide, by decide⟩

/-- C1 (amended): for every old RLS-classified name whose formula is
byte-identical to exactly one differently-named new RLS-classified name,
a rename (old → new) is recorded; a renamed old name is never emitted as
a removal card and its rename target is never emitted as an addition
card.  Exclusivity is only enforced on the new side: when one formula
appears under two old names and one new name, both old names are renamed
to that single new name (none falls back to removal), rather than
neither. -/
theorem c1_rename_one_to_one :
    (∀ env old_calcs new_calcs o f m,
      (o, f) ∈ rls_filter env old_calcs →
      rls_matches o f (rls_filter env new_calcs) = [m] →
      (o, m) ∈ detect_rls_renames env old_calcs new_calcs) ∧
    (∀ env old_calcs new_calcs new_sections o m,
      (o, m) ∈ detect_rls_renames env old_calcs new_calcs →
      renameCard env new_calcs (o, m) ∈
        calc_cards env old_calcs new_calcs new_sections ∧
      (∀ c ∈ calc_cards env old_calcs new_calcs new_sections,
        c.status = "removed" → c.name ≠ o) ∧
      (∀ c ∈ calc_cards env old_calcs new_calcs new_sections,
        c.status = "added" → c.name ≠ m)) := by
  constructor
  · intro env old_calcs new_calcs o f m hmem hmatch
    unfold detect_rls_renames
    refine List.mem_filterMap.2 ⟨(o, f), hmem, ?_⟩
    rw [hmatch]
  · intro env old_calcs new_calcs new_sections o m hren
    refine ⟨?_, ?_, ?_⟩
    · unfold calc_cards
      exact List.mem_append_left _ (List.mem_append_left _
        (List.mem_map.2 ⟨(o, m), hren, rfl⟩))
    · intro c hc hst
      unfold calc_cards at hc
      rcases List.mem_append.1 hc with hc | hc
      · rcases List.mem_append.1 hc with hc | hc
        · obtain ⟨p, _, rfl⟩ := List.mem_map.1 hc
          simp [renameCard] at hst
        · obtain ⟨p, hp, heq⟩ := List.mem_filterMap.1 hc
          by_cases hcond : p.1 ∈ (detect_rls_renames env old_calcs new_calcs).map Prod.fst ∨
              (alookup new_calcs p.1).isSome = true
          · rw [if_pos hcond] at heq
            cases heq
          · rw [if_neg hcond] at heq
            cases heq
            intro hname
            refine hcond (Or.inl ?_)
            rw [show (removedCalcCard env p.1 p.2).name = p.1 from rfl] at hname
            rw [hname]
            exact List.mem_map.2 ⟨(o, m), hren, rfl⟩
      · obtain ⟨p, hp, heq⟩ := List.mem_filterMap.1 hc
        by_cases hcond : p.1 ∈ (detect_rls_renames env old_calcs new_calcs).map Prod.snd ∨
            (alookup old_calcs p.1).isSome = true
        · rw [if_pos hcond] at heq
          cases heq
        · rw [if_neg hcond] at heq
          cases heq
          simp [addedCalcCard] at hst
    · intro c hc hst
      unfold calc_cards at hc
      rcases List.mem_append.1 hc with hc | hc
      · rcases List.mem_append.1 hc with hc | hc
        · obtain ⟨p, _, rfl⟩ := List.mem_map.1 hc
          simp [renameCard] at hst
        · obtain ⟨p, hp, heq⟩ := List.mem_filterMap.1 hc
          by_cases hcond : p.1 ∈ (detect_rls_renames env old_calcs new_calcs).map Prod.fst ∨
              (alookup new_calcs p.1).isSome = true
          · rw [if_pos hcond] at heq
            cases heq
          · rw [if_neg hcond] at heq
            cases heq
            simp [removedCalcCard] at hst
      · obtain ⟨p, hp, heq⟩ := List.mem_filterMap.1 hc
        by_cases hcond : p.1 ∈ (detect_rls_renames env old_calcs new_calcs).map Prod.snd ∨
            (alookup old_calcs p.1).isSome = true
        · rw [if_pos hcond] at heq
          cases heq
        · rw [if_neg hcond] at heq
          cases heq
          intro hname
          refine hcond (Or.inl ?_)
          rw [show (addedCalcCard env new_sections p.1 p.2).name = p.1 from rfl] at hname
          rw [hname]
          exact List.mem_map.2 ⟨(o, m), hren, rfl⟩

/-- C1 witness: a one-to-one RLS formula match is detected as a rename
and its rename card is emitted. -/
theorem c1_rename_one_to_one_witness :
    ("X", "Y") ∈ detect_rls_renames envRls [("X", "x1")] [("Y", "y1")] ∧
    renameCard envRls [("Y", "y1")] ("X", "Y") ∈
      calc_cards envRls [("X", "x1")] [("Y", "y1")] emptySections :=
  have h1 : ("X", "Y") ∈ detect_rls_renames envRls [("X", "x1")] [("Y", "y1")] :=
    c1_rename_one_to_one.1 envRls [("X", "x1")] [("Y", "y1")] "X"
      (some "ISMEMBEROF(Group)") "Y" (by decide) (by decide)
  ⟨h1, (c1_rename_one_to_one.2 envRls [("X", "x1")] [("Y", "y1")] emptySections "X" "Y" h1).1⟩

/-- C8: the containment claim is right about parse failures — a tree
that failed to parse yields the empty section map (first conjunct) — but
the code has a fatal error path the claim rules out: an old tree whose
calculation column carries an empty `calculation` element produces a
removed-calculation card holding a literal Python `None` bullet
(`extract_formula` returns the falsy `""`), and registry population then
raises a `TypeError` inside `dedupe_visual_bullets` /
`simplify_visual_bullet`, aborting the run (second conjunct). -/
theorem c8_error_containment_bug :
    extract_sections none = emptySections ∧
    full_compare envEF (some c8OldTree) (some c8NewTree) = .error () :=
  ⟨rfl, by decide⟩

theorem charListLe_total : ∀ a b : List Char, charListLe a b = true ∨ charListLe b a = true := by
  intro a
  induction a with
  | nil => intro b; left; rfl
  | cons x xs ih =>
    intro b
    cases b with
    | nil => right; rfl
    | cons y ys =>
      by_cases h1 : x.toNat < y.toNat
      · left; simp [charListLe, h1]
      · by_cases h2 : y.toNat < x.toNat
        · right; simp [charListLe, h2]
        · rcases ih ys with h | h
          · left; simp [charListLe, h1, h2, h]
          · right; simp [charListLe, h1, h2, h]

theorem charListLe_trans : ∀ a b c : List Char,
    charListLe a b = true → charListLe b c = true → charListLe a c = true := by
  intro a
  induction a with
  | nil => intro b c _ _; rfl
  | cons x xs ih =>
    intro b c hab hbc
    cases b with
    | nil => simp [charListLe] at hab
    | cons y ys =>
      cases c with
      | nil => simp [charListLe] at hbc
      | cons z zs =>
        simp only [charListLe] at hab hbc ⊢
        by_cases h1 : x.toNat < y.toNat
        · by_cases h2 : y.toNat < z.toNat
          · rw [if_pos (by omega)]
          · by_cases h3 : z.toNat < y.toNat
            · rw [if_neg h2, if_pos h3] at hbc
              exact absurd hbc (by simp)
            · rw [if_pos (by omega)]
        · by_cases h1' : y.toNat < x.toNat
          · rw [if_neg h1, if_pos h1'] at hab
            exact absurd hab (by simp)
          · rw [if_neg h1, if_neg h1'] at hab
            by_cases h2 : y.toNat < z.toNat
            · rw [if_pos (by omega)]
            · by_cases h3 : z.toNat < y.toNat
              · rw [if_neg h2, if_pos h3] at hbc
                exact absurd hbc (by simp)
              · rw [if_neg h2, if_neg h3] at hbc
                rw [if_neg (by omega), if_neg (by omega)]
                exact ih ys zs hab hbc

theorem charListLe_antisymm : ∀ a b : List Char,
    charListLe a b = true → charListLe b a = true → a = b := by
  intro a
  induction a with
  | nil =>
    intro b h1 h2
    cases b with
    | nil => rfl
    | cons y ys => simp [charListLe] at h2
  | cons x xs ih =>
    intro b h1 h2
    cases b with
    | nil => simp [charListLe] at h1
    | cons y ys =>
      simp only [charListLe] at h1 h2
      by_cases hxy : x.toNat < y.toNat
      · rw [if_neg (by omega), if_pos hxy] at h2
        exact absurd h2 (by simp)
      · by_cases hyx : y.toNat < x.toNat
        · rw [if_neg hxy, if_pos hyx] at h1
          exact absurd h1 (by simp)
        · rw [if_neg hxy, if_neg hyx] at h1
          rw [if_neg hyx, if_neg hxy] at h2
          have hnat : x.toNat = y.toNat := by omega
          have hxyc : x = y := Char.ext (UInt32.toNat.inj hnat)
          rw [hxyc, ih ys h1 h2]

instance : IsTotal String (fun a b => strLeB a b = true) :=
  ⟨fun a b => charListLe_total a.data b.data⟩

instance : IsTrans String (fun a b => strLeB a b = true) :=
  ⟨fun a b c => charListLe_trans a.data b.data c.data⟩

instance : IsAntisymm String (fun a b => strLeB a b = true) :=
  ⟨fun a b h1 h2 => by
    have h := charListLe_antisymm a.data b.data h1 h2
    cases a
    cases b
    exact congrArg String.mk h⟩

theorem sortedUnion_comm (A B : List (String × String)) :
    sortedUnion B A = sortedUnion A B := by
  unfold sortedUnion
  refine List.eq_of_perm_of_sorted ?_
    (List.sorted_insertionSort _ _) (List.sorted_insertionSort _ _)
  refine (List.perm_insertionSort _ _).trans
    (List.Perm.trans ?_ (List.perm_insertionSort _ _).symm)
  refine (List.perm_ext_iff_of_nodup (nodup_dedupFirst _) (nodup_dedupFirst _)).2 ?_
  intro x
  simp [mem_dedupFirst, List.mem_append, or_comm]

theorem nodup_sortedUnion (A B : List (String × String)) : (sortedUnion A B).Nodup := by
  unfold sortedUnion
  exact (List.perm_insertionSort _ _).nodup_iff.2 (nodup_dedupFirst _)

theorem mem_sortedUnion (A B : List (String × String)) (x : String) :
    x ∈ sortedUnion A B ↔ x ∈ A.map Prod.fst ∨ x ∈ B.map Prod.fst := by
  unfold sortedUnion
  rw [(List.perm_insertionSort _ _).mem_iff, mem_dedupFirst, List.mem_append]

theorem alookup_isSome_mem (m : List (String × String)) (k : String)
    (h : (alookup m k).isSome = true) : k ∈ m.map Prod.fst := by
  induction m with
  | nil => simp [alookup] at h
  | cons p r ih =>
    obtain ⟨k', v⟩ := p
    by_cases hk : k' = k
    · subst hk; simp
    · simp only [alookup, if_neg hk] at h
      simpa using Or.inr (by simpa using ih h)

theorem applyMerge_fields (level parent : String) (f : List ChangeEntry → List ChangeEntry)
    (reg : Registry) :
    (applyMerge level parent f reg).calculations = reg.calculations ∧
    (level ≠ "workbook" → (applyMerge level parent f reg).workbook = reg.workbook) ∧
    (level ≠ "datasource" → (applyMerge level parent f reg).datasources = reg.datasources) ∧
    (level ≠ "worksheet" → (applyMerge level parent f reg).worksheets = reg.worksheets) ∧
    (level ≠ "dashboard" → (applyMerge level parent f reg).dashboards = reg.dashboards) ∧
    (level ≠ "parameter" → (applyMerge level parent f reg).parameters = reg.parameters) ∧
    (level ≠ "story" → (applyMerge level parent f reg).stories = reg.stories) := by
  unfold applyMerge
  by_cases h1 : level = "workbook"
  · simp [h1]
  by_cases h2 : level = "datasource"
  · simp [h1, h2]
  by_cases h3 : level = "worksheet"
  · simp [h1, h2, h3]
  by_cases h4 : level = "dashboard"
  · simp [h1, h2, h3, h4]
  by_cases h5 : level = "parameter"
  · simp [h1, h2, h3, h4, h5]
  by_cases h6 : level = "story"
  · simp [h1, h2, h3, h4, h5, h6]
  · simp [h1, h2, h3, h4, h5, h6]

theorem register_change_fields (level parent title status : String)
    (bullets : List (Option String)) (reg r1 : Registry)
    (h : register_change level parent title status bullets reg = .ok r1) :
    r1.calculations = reg.calculations ∧
    (level ≠ "workbook" → r1.workbook = reg.workbook) ∧
    (level ≠ "datasource" → r1.datasources = reg.datasources) ∧
    (level ≠ "worksheet" → r1.worksheets = reg.worksheets) ∧
    (level ≠ "dashboard" → r1.dashboards = reg.dashboards) ∧
    (level ≠ "parameter" → r1.parameters = reg.parameters) ∧
    (level ≠ "story" → r1.stories = reg.stories) := by
  unfold register_change at h
  by_cases hfl : level = "datasource" ∧ title = "Datasource Filters"
  · rw [if_pos hfl] at h
    cases h
    refine ⟨rfl, fun _ => rfl, fun hne => absurd hfl.1 hne, fun _ => rfl, fun _ => rfl,
      fun _ => rfl, fun _ => rfl⟩
  · rw [if_neg hfl] at h
    cases heff : effStatusOf level status bullets with
    | error e => rw [heff, exbind_err] at h; cases h
    | ok effS =>
      rw [heff, exbind_ok] at h
      cases hded : dedupe_visual_bullets bullets with
      | error e => rw [hded, exbind_err] at h; cases h
      | ok clean =>
        rw [hded, exbind_ok] at h
        cases h
        exact applyMerge_fields level parent _ reg

theorem register_all_some_ok (level parent title status : String) (bs : List String)
    (reg : Registry) :
    ∃ r1, register_change level parent title status (bs.map some) reg = .ok r1 := by
  unfold register_change
  by_cases hfl : level = "datasource" ∧ title = "Datasource Filters"
  · rw [if_pos hfl]
    exact ⟨_, rfl⟩
  · rw [if_neg hfl]
    obtain ⟨effS, heff⟩ := effStatusOf_all_some level status bs
    obtain ⟨clean, hded⟩ := dedupe_all_some bs []
    rw [heff, exbind_ok, show dedupe_visual_bullets (bs.map some) = .ok clean from hded,
      exbind_ok]
    exact ⟨_, rfl⟩

theorem reg_effect_spec (env : Env) (label : String) (old new : List (String × String))
    (nm : String) (reg : Registry) :
    ∃ reg', reg_effect_for_name env label old new nm reg = .ok reg' ∧
      reg'.workbook = reg.workbook ∧ reg'.calculations = reg.calculations ∧
      reg'.parameters = reg.parameters ∧ reg'.worksheets = reg.worksheets ∧
      reg'.dashboards = reg.dashboards ∧ reg'.stories = reg.stories := by
  unfold reg_effect_for_name summarize_datasources
  by_cases h1 : truthy (alookup old nm) = true ∧ ¬ truthy (alookup new nm) = true ∧
      label = "Datasource"
  · rw [if_pos h1]
    obtain ⟨r1, hr⟩ := register_all_some_ok "datasource" nm "Datasource Summary" "info"
      (env.dsBullets nm (if truthy none = true then none else alookup old nm)) reg
    obtain ⟨hc, hw, _, hws, hdb, hpar, hst⟩ :=
      register_change_fields _ _ _ _ _ _ _ hr
    exact ⟨r1, hr, hw (by decide), hc, hpar (by decide), hws (by decide), hdb (by decide),
      hst (by decide)⟩
  · rw [if_neg h1]
    by_cases h2 : truthy (alookup new nm) = true ∧ ¬ truthy (alookup old nm) = true ∧
        label = "Datasource"
    · rw [if_pos h2]
      obtain ⟨r1, hr⟩ := register_all_some_ok "datasource" nm "Datasource Summary" "info"
        (env.dsBullets nm (if truthy (alookup new nm) = true then alookup new nm else none))
        reg
      obtain ⟨hc, hw, _, hws, hdb, hpar, hst⟩ :=
        register_change_fields _ _ _ _ _ _ _ hr
      exact ⟨r1, hr, hw (by decide), hc, hpar (by decide), hws (by decide), hdb (by decide),
        hst (by decide)⟩
    · rw [if_neg h2]
      exact ⟨reg, rfl, rfl, rfl, rfl, rfl, rfl, rfl⟩

theorem section_go_spec (env : Env) (sec label : String) (old new : List (String × String)) :
    ∀ (names : List String) (acc : List Card) (reg : Registry),
      ∃ reg', section_go env sec label old new names acc reg =
          .ok (acc ++ names.flatMap (cards_for_name env sec label old new), reg') ∧
        reg'.workbook = reg.workbook ∧ reg'.calculations = reg.calculations ∧
        reg'.parameters = reg.parameters ∧ reg'.worksheets = reg.worksheets ∧
        reg'.dashboards = reg.dashboards ∧ reg'.stories = reg.stories := by
  intro names
  induction names with
  | nil =>
    intro acc reg
    exact ⟨reg, by simp [section_go], rfl, rfl, rfl, rfl, rfl, rfl⟩
  | cons nm rest ih =>
    intro acc reg
    obtain ⟨r1, h1, hw1, hc1, hp1, hws1, hdb1, hst1⟩ := reg_effect_spec env label old new nm reg
    obtain ⟨r2, h2, hw2, hc2, hp2, hws2, hdb2, hst2⟩ :=
      ih (acc ++ cards_for_name env sec label old new nm) r1
    refine ⟨r2, ?_, hw2.trans hw1, hc2.trans hc1, hp2.trans hp1, hws2.trans hws1,
      hdb2.trans hdb1, hst2.trans hst1⟩
    show (do
      let reg' ← reg_effect_for_name env label old new nm reg
      section_go env sec label old new rest
        (acc ++ cards_for_name env sec label old new nm) reg') = _
    rw [h1, exbind_ok, h2]
    simp [List.flatMap_cons, List.append_assoc]

theorem cards_for_name_removed (env : Env) (sec label : String)
    (old new : List (String × String)) (nm : String)
    (h1 : truthy (alookup old nm) = true) (h2 : truthy (alookup new nm) = false)
    (hlab : label ≠ "Datasource") :
    cards_for_name env sec label old new nm = [removedCard sec label nm] := by
  unfold cards_for_name
  rw [if_pos ⟨h1, by simp [h2]⟩, if_neg hlab]

theorem cards_for_name_removed_ds (env : Env) (sec : String)
    (old new : List (String × String)) (nm : String)
    (h1 : truthy (alookup old nm) = true) (h2 : truthy (alookup new nm) = false) :
    cards_for_name env sec "Datasource" old new nm = [] := by
  unfold cards_for_name
  rw [if_pos ⟨h1, by simp [h2]⟩, if_pos rfl]

theorem cards_for_name_added (env : Env) (sec label : String)
    (old new : List (String × String)) (nm : String)
    (h1 : truthy (alookup new nm) = true) (h2 : truthy (alookup old nm) = false)
    (hlab : label ≠ "Datasource") :
    cards_for_name env sec label old new nm = [addedCard sec label nm] := by
  unfold cards_for_name
  rw [if_neg (fun hc => by rw [h2] at hc; exact absurd hc.1 (by simp)),
    if_pos ⟨h1, by simp [h2]⟩, if_neg hlab]

theorem cards_for_name_same (env : Env) (sec label : String)
    (old new : List (String × String)) (nm f : String)
    (ho : alookup old nm = some f) (hn : alookup new nm = some f) :
    cards_for_name env sec label old new nm = [] := by
  unfold cards_for_name
  rw [ho, hn]
  rw [if_neg (fun hc => hc.2 hc.1), if_neg (fun hc => hc.2 hc.1),
    if_neg (fun hc => hc.2.2 rfl)]

theorem cards_for_name_modified (env : Env) (sec label : String)
    (old new : List (String × String)) (nm o n : String)
    (ho : alookup old nm = some o) (hn : alookup new nm = some n)
    (ho' : o ≠ "") (hn' : n ≠ "") (hne : o ≠ n)
    (hnoise : ¬ ((label = "Dashboard" ∨ label = "Story") ∧
      is_story_publish_noise env o n = true)) :
    cards_for_name env sec label old new nm = modifiedCards env sec label nm o n := by
  unfold cards_for_name
  rw [ho, hn]
  have hto : truthy (some o) = true := by simpa [truthy] using ho'
  have htn : truthy (some n) = true := by simpa [truthy] using hn'
  rw [if_neg (fun hc => by rw [htn] at hc; exact hc.2 rfl),
    if_neg (fun hc => by rw [hto] at hc; exact hc.2 rfl),
    if_pos ⟨hto, htn, by simpa using hne⟩, if_neg (by simpa using hnoise)]
  rfl

theorem cards_for_name_noise (env : Env) (sec label : String)
    (old new : List (String × String)) (nm o n : String)
    (ho : alookup old nm = some o) (hn : alookup new nm = some n)
    (ho' : o ≠ "") (hn' : n ≠ "") (hne : o ≠ n)
    (hlab : label = "Dashboard" ∨ label = "Story")
    (hnoise : is_story_publish_noise env o n = true) :
    cards_for_name env sec label old new nm = [] := by
  unfold cards_for_name
  rw [ho, hn]
  have hto : truthy (some o) = true := by simpa [truthy] using ho'
  have htn : truthy (some n) = true := by simpa [truthy] using hn'
  rw [if_neg (fun hc => by rw [htn] at hc; exact hc.2 rfl),
    if_neg (fun hc => by rw [hto] at hc; exact hc.2 rfl),
    if_pos ⟨hto, htn, by simpa using hne⟩, if_pos (by simpa using ⟨hlab, hnoise⟩)]

theorem modifiedCards_name (env : Env) (sec label nm o n : String) :
    ∀ c ∈ modifiedCards env sec label nm o n, c.name = nm ∧ c.sect = sec := by
  intro c hc
  simp only [modifiedCards] at hc
  split_ifs at hc
  all_goals
    first
    | (rw [List.mem_singleton] at hc
       subst hc
       exact ⟨rfl, rfl⟩)
    | cases hc

theorem cards_for_name_name (env : Env) (sec label : String)
    (old new : List (String × String)) (nm : String) :
    ∀ c ∈ cards_for_name env sec label old new nm, c.name = nm ∧ c.sect = sec := by
  intro c hc
  simp only [cards_for_name] at hc
  split_ifs at hc
  all_goals
    first
    | (rw [List.mem_singleton] at hc
       subst hc
       exact ⟨rfl, rfl⟩)
    | exact modifiedCards_name env sec label nm _ _ c hc
    | cases hc

theorem calc_cards_sect (env : Env) (oc nc : List (String × String)) (ns : Sections) :
    ∀ c ∈ calc_cards env oc nc ns, c.sect = "calculations" := by
  intro c hc
  unfold calc_cards at hc
  rcases List.mem_append.1 hc with hc | hc
  · rcases List.mem_append.1 hc with hc | hc
    · obtain ⟨p, _, rfl⟩ := List.mem_map.1 hc
      rfl
    · obtain ⟨p, _, heq⟩ := List.mem_filterMap.1 hc
      by_cases hcond : p.1 ∈ (detect_rls_renames env oc nc).map Prod.fst ∨
          (alookup nc p.1).isSome = true
      · rw [if_pos hcond] at heq; cases heq
      · rw [if_neg hcond] at heq; cases heq; rfl
  · obtain ⟨p, _, heq⟩ := List.mem_filterMap.1 hc
    by_cases hcond : p.1 ∈ (detect_rls_renames env oc nc).map Prod.snd ∨
        (alookup oc p.1).isSome = true
    · rw [if_pos hcond] at heq; cases heq
    · rw [if_neg hcond] at heq; cases heq; rfl

theorem filter_flatMap_cards (env : Env) (sec label : String)
    (old new : List (String × String)) (nm : String) :
    ∀ names : List String, names.Nodup →
      ((names.flatMap (cards_for_name env sec label old new)).filter
        (fun c => c.name == nm)) =
      if nm ∈ names then cards_for_name env sec label old new nm else [] := by
  intro names hnd
  induction names with
  | nil => simp
  | cons a rest ih =>
    rw [List.flatMap_cons, List.filter_append, ih (List.Nodup.of_cons hnd)]
    by_cases ha : a = nm
    · subst ha
      have h1 : (cards_for_name env sec label old new a).filter
          (fun c => c.name == a) = cards_for_name env sec label old new a :=
        List.filter_eq_self.2 fun c hc => by
          simp [(cards_for_name_name env sec label old new a c hc).1]
      have h2 : a ∉ rest := (List.nodup_cons.1 hnd).1
      rw [h1, if_neg h2, if_pos (List.mem_cons_self a rest)]
      simp
    · have h1 : (cards_for_name env sec label old new a).filter
          (fun c => c.name == nm) = [] :=
        List.filter_eq_nil_iff.2 fun c hc => by
          simp [(cards_for_name_name env sec label old new a c hc).1, ha]
      rw [h1, List.nil_append]
      by_cases hm : nm ∈ rest
      · rw [if_pos hm, if_pos (List.mem_cons_of_mem a hm)]
      · refine (if_neg hm).trans (if_neg ?_).symm
        intro hmem
        rcases List.mem_cons.1 hmem with heq | hmem
        · exact ha heq.symm
        · exact hm hmem

theorem section_cards_filter (env : Env) (sec label : String)
    (old new : List (String × String)) (reg : Registry) (cards : List Card)
    (reg' : Registry) (nm : String)
    (h : section_cards env sec label old new reg = .ok (cards, reg')) :
    cards.filter (fun c => c.name == nm) =
      if nm ∈ sortedUnion old new then cards_for_name env sec label old new nm else [] := by
  obtain ⟨r2, hgo, _⟩ := section_go_spec env sec label old new (sortedUnion old new) [] reg
  unfold section_cards at h
  rw [hgo] at h
  injection h with h2
  injection h2 with hcards hreg
  rw [← hcards, List.nil_append]
  exact filter_flatMap_cards env sec label old new nm _ (nodup_sortedUnion old new)

/-- C4: the classification claim fails as stated for the calculations
category: a calculation name present in both maps with different
serialized content produces no record at all (the separate calculation
pass skips every common name; there is no modified branch), where the
claim requires a Modified record. -/
theorem c4_counterexample :
    build_cards envN { emptySections with calculations := [("C", "f1")] }
      { emptySections with calculations := [("C", "f2")] } emptyRegistry =
      .ok ([], emptyRegistry) := by decide

/-- C4 (amended): in the five non-calculation categories the comparator
iterates the sorted union of old and new names and classifies each name:
Removed when only in the old map (with a nonempty fragment), Added when
only in the new map, no record when the serialized content is identical,
and the Modified-branch cards when the content differs (which yield a
record only when the bullet computation is nonempty, and are suppressed
wholesale for container-view/narrative-sequence pairs flagged as publish
noise); removed/added datasources delegate to a summary routine and
yield no card.  Calculations are handled by a separate pass in which a
name present in both maps never yields a removed or added card (any card
carrying its name is a rename card with status modified). -/
theorem c4_classification :
    (∀ env sec label old new reg cards reg' nm o,
      section_cards env sec label old new reg = .ok (cards, reg') →
      label ≠ "Datasource" →
      alookup old nm = some o → o ≠ "" → truthy (alookup new nm) = false →
      cards.filter (fun c => c.name == nm) = [removedCard sec label nm]) ∧
    (∀ env sec label old new reg cards reg' nm n,
      section_cards env sec label old new reg = .ok (cards, reg') →
      label ≠ "Datasource" →
      alookup new nm = some n → n ≠ "" → truthy (alookup old nm) = false →
      cards.filter (fun c => c.name == nm) = [addedCard sec label nm]) ∧
    (∀ env sec label old new reg cards reg' nm f,
      section_cards env sec label old new reg = .ok (cards, reg') →
      alookup old nm = some f → alookup new nm = some f →
      cards.filter (fun c => c.name == nm) = []) ∧
    (∀ env sec label old new reg cards reg' nm o n,
      section_cards env sec label old new reg = .ok (cards, reg') →
      alookup old nm = some o → alookup new nm = some n → o ≠ "" → n ≠ "" → o ≠ n →
      ¬ ((label = "Dashboard" ∨ label = "Story") ∧
        is_story_publish_noise env o n = true) →
      cards.filter (fun c => c.name == nm) = modifiedCards env sec label nm o n) ∧
    (∀ env old_calcs new_calcs new_sections nm c,
      (alookup old_calcs nm).isSome = true → (alookup new_calcs nm).isSome = true →
      c ∈ calc_cards env old_calcs new_calcs new_sections → c.name = nm →
      c.status = "modified") := by
  refine ⟨?_, ?_, ?_, ?_, ?_⟩
  · intro env sec label old new reg cards reg' nm o h hlab ho ho' hn
    rw [section_cards_filter env sec label old new reg cards reg' nm h,
      if_pos ((mem_sortedUnion old new nm).2 (Or.inl (alookup_isSome_mem old nm
        (by rw [ho]; rfl))))]
    exact cards_for_name_removed env sec label old new nm
      (by rw [ho]; simpa [truthy] using ho') hn hlab
  · intro env sec label old new reg cards reg' nm n h hlab hn hn' ho
    rw [section_cards_filter env sec label old new reg cards reg' nm h,
      if_pos ((mem_sortedUnion old new nm).2 (Or.inr (alookup_isSome_mem new nm
        (by rw [hn]; rfl))))]
    exact cards_for_name_added env sec label old new nm
      (by rw [hn]; simpa [truthy] using hn') ho hlab
  · intro env sec label old new reg cards reg' nm f h ho hn
    rw [section_cards_filter env sec label old new reg cards reg' nm h]
    by_cases hm : nm ∈ sortedUnion old new
    · rw [if_pos hm]
      exact cards_for_name_same env sec label old new nm f ho hn
    · rw [if_neg hm]
  · intro env sec label old new reg cards reg' nm o n h ho hn ho' hn' hne hnoise
    rw [section_cards_filter env sec label old new reg cards reg' nm h,
      if_pos ((mem_sortedUnion old new nm).2 (Or.inl (alookup_isSome_mem old nm
        (by rw [ho]; rfl))))]
    exact cards_for_name_modified env sec label old new nm o n ho hn ho' hn' hne hnoise
  · intro env old_calcs new_calcs new_sections nm c hold hnew hc hname
    unfold calc_cards at hc
    rcases List.mem_append.1 hc with hc | hc
    · rcases List.mem_append.1 hc with hc | hc
      · obtain ⟨p, _, rfl⟩ := List.mem_map.1 hc
        rfl
      · obtain ⟨p, hp, heq⟩ := List.mem_filterMap.1 hc
        by_cases hcond : p.1 ∈ (detect_rls_renames env old_calcs new_calcs).map Prod.fst ∨
            (alookup new_calcs p.1).isSome = true
        · rw [if_pos hcond] at heq; cases heq
        · rw [if_neg hcond] at heq
          cases heq
          rw [show (removedCalcCard env p.1 p.2).name = p.1 from rfl] at hname
          exact absurd (Or.inr (hname ▸ hnew)) hcond
    · obtain ⟨p, hp, heq⟩ := List.mem_filterMap.1 hc
      by_cases hcond : p.1 ∈ (detect_rls_renames env old_calcs new_calcs).map Prod.snd ∨
          (alookup old_calcs p.1).isSome = true
      · rw [if_pos hcond] at heq; cases heq
      · rw [if_neg hcond] at heq
        cases heq
        rw [show (addedCalcCard env new_sections p.1 p.2).name = p.1 from rfl] at hname
        exact absurd (Or.inr (hname ▸ hold)) hcond

/-- C4 witness: a worksheet present only in the old map yields exactly one
removed card for its name. -/
theorem c4_classification_witness :
    ([removedCard "worksheets" "Worksheet" "W"].filter (fun c => c.name == "W")) =
      [removedCard "worksheets" "Worksheet" "W"] :=
  c4_classification.1 envN "worksheets" "Worksheet" [("W", "x")] [] emptyRegistry
    [removedCard "worksheets" "Worksheet" "W"] emptyRegistry "W" "x"
    (by decide) (by decide) (by decide) (by decide) (by decide)

theorem cards_for_name_nocard (env : Env) (sec label : String)
    (old new : List (String × String)) (nm : String)
    (h1 : truthy (alookup old nm) = false) (h2 : truthy (alookup new nm) = false) :
    cards_for_name env sec label old new nm = [] := by
  unfold cards_for_name
  rw [if_neg (fun hc => by rw [h1] at hc; exact absurd hc.1 (by simp)),
    if_neg (fun hc => by rw [h2] at hc; exact absurd hc.1 (by simp)),
    if_neg (fun hc => by rw [h1] at hc; exact absurd hc.1 (by simp))]

theorem cards_for_name_added_ds (env : Env) (sec : String)
    (old new : List (String × String)) (nm : String)
    (h1 : truthy (alookup new nm) = true) (h2 : truthy (alookup old nm) = false) :
    cards_for_name env sec "Datasource" old new nm = [] := by
  unfold cards_for_name
  rw [if_neg (fun hc => by rw [h2] at hc; exact absurd hc.1 (by simp)),
    if_pos ⟨h1, by simp [h2]⟩, if_pos rfl]

theorem cards_for_name_flip (env : Env) (sec label : String)
    (A B : List (String × String)) (nm : String)
    (hag : ∀ o n, alookup A nm = some o → alookup B nm = some n → o = n) :
    cards_for_name env sec label B A nm =
      (cards_for_name env sec label A B nm).map (flipCard sec label) := by
  cases hA : alookup A nm with
  | none =>
    cases hB : alookup B nm with
    | none =>
      rw [cards_for_name_nocard env sec label B A nm (by rw [hB]; rfl) (by rw [hA]; rfl),
        cards_for_name_nocard env sec label A B nm (by rw [hA]; rfl) (by rw [hB]; rfl)]
      rfl
    | some b =>
      by_cases hb : b = ""
      · subst hb
        rw [cards_for_name_nocard env sec label B A nm (by rw [hB]; rfl)
            (by rw [hA]; rfl),
          cards_for_name_nocard env sec label A B nm (by rw [hA]; rfl) (by rw [hB]; rfl)]
        rfl
      · by_cases hlab : label = "Datasource"
        · subst hlab
          rw [cards_for_name_removed_ds env sec B A nm
              (by rw [hB]; simpa [truthy] using hb) (by rw [hA]; rfl),
            cards_for_name_added_ds env sec A B nm
              (by rw [hB]; simpa [truthy] using hb) (by rw [hA]; rfl)]
          rfl
        · rw [cards_for_name_removed env sec label B A nm
              (by rw [hB]; simpa [truthy] using hb) (by rw [hA]; rfl) hlab,
            cards_for_name_added env sec label A B nm
              (by rw [hB]; simpa [truthy] using hb) (by rw [hA]; rfl) hlab]
          rfl
  | some a =>
    cases hB : alookup B nm with
    | none =>
      by_cases ha : a = ""
      · subst ha
        rw [cards_for_name_nocard env sec label B A nm (by rw [hB]; rfl)
            (by rw [hA]; rfl),
          cards_for_name_nocard env sec label A B nm (by rw [hA]; rfl) (by rw [hB]; rfl)]
        rfl
      · by_cases hlab : label = "Datasource"
        · subst hlab
          rw [cards_for_name_added_ds env sec B A nm
              (by rw [hA]; simpa [truthy] using ha) (by rw [hB]; rfl),
            cards_for_name_removed_ds env sec A B nm
              (by rw [hA]; simpa [truthy] using ha) (by rw [hB]; rfl)]
          rfl
        · rw [cards_for_name_added env sec label B A nm
              (by rw [hA]; simpa [truthy] using ha) (by rw [hB]; rfl) hlab,
            cards_for_name_removed env sec label A B nm
              (by rw [hA]; simpa [truthy] using ha) (by rw [hB]; rfl) hlab]
          rfl
    | some b =>
      have hab : a = b := hag a b hA hB
      subst hab
      rw [cards_for_name_same env sec label B A nm a hB hA,
        cards_for_name_same env sec label A B nm a hA hB]
      rfl

theorem flatMap_flip (env : Env) (sec label : String)
    (A B : List (String × String))
    (hag : ∀ nm o n, alookup A nm = some o → alookup B nm = some n → o = n) :
    ∀ names : List String,
      names.flatMap (cards_for_name env sec label B A) =
        (names.flatMap (cards_for_name env sec label A B)).map (flipCard sec label) := by
  intro names
  induction names with
  | nil => rfl
  | cons nm rest ih =>
    rw [List.flatMap_cons, List.flatMap_cons, List.map_append, ih,
      cards_for_name_flip env sec label A B nm (hag nm)]

/-- C7: the claim fails as stated.  For a worksheet present only in map A,
comparing (A, B) yields a removed card and comparing (B, A) the added
card — statuses are swapped, but the bullet contents differ (the single
bullet says "... removed" in one direction and "... added" in the
other), so the records do not have identical bullet content. -/
theorem c7_counterexample :
    section_cards envN "worksheets" "Worksheet" [("W", "x")] [] emptyRegistry =
      .ok ([removedCard "worksheets" "Worksheet" "W"], emptyRegistry) ∧
    section_cards envN "worksheets" "Worksheet" [] [("W", "x")] emptyRegistry =
      .ok ([addedCard "worksheets" "Worksheet" "W"], emptyRegistry) ∧
    (removedCard "worksheets" "Worksheet" "W").bullets ≠
      (addedCard "worksheets" "Worksheet" "W").bullets :=
  ⟨by decide, by decide, by decide⟩

/-- C7 (amended): for a pair of section maps in one category differing
only by presence/absence (every commonly-present name has identical
content), comparing (A, B) and (B, A) yields the same records with
Added and Removed swapped, where each record's single bullet swaps the
trailing "added"/"removed" word accordingly (bullet content is identical
except for that word); the rename-detecting calculations category is
handled by its own pass and is outside this symmetry. -/
theorem c7_add_remove_symmetry :
    ∀ env sec label A B regA regB cardsAB cardsBA regA2 regB2,
      (∀ nm o n, alookup A nm = some o → alookup B nm = some n → o = n) →
      section_cards env sec label A B regA = .ok (cardsAB, regA2) →
      section_cards env sec label B A regB = .ok (cardsBA, regB2) →
      cardsBA = cardsAB.map (flipCard sec label) := by
  intro env sec label A B regA regB cardsAB cardsBA regA2 regB2 hag hAB hBA
  obtain ⟨rA, hgoA, _⟩ := section_go_spec env sec label A B (sortedUnion A B) [] regA
  obtain ⟨rB, hgoB, _⟩ := section_go_spec env sec label B A (sortedUnion B A) [] regB
  unfold section_cards at hAB hBA
  rw [hgoA] at hAB
  rw [hgoB] at hBA
  injection hAB with hAB2
  injection hAB2 with hcardsA hregA
  injection hBA with hBA2
  injection hBA2 with hcardsB hregB
  rw [← hcardsA, ← hcardsB, List.nil_append, List.nil_append, sortedUnion_comm A B]
  exact flatMap_flip env sec label A B hag (sortedUnion A B)

/-- C7 witness: the symmetry applied to a one-worksheet map against the
empty map. -/
theorem c7_add_remove_symmetry_witness :
    [addedCard "worksheets" "Worksheet" "W"] =
      [removedCard "worksheets" "Worksheet" "W"].map (flipCard "worksheets" "Worksheet") :=
  c7_add_remove_symmetry envN "worksheets" "Worksheet" [("W", "x")] [] emptyRegistry
    emptyRegistry [removedCard "worksheets" "Worksheet" "W"]
    [addedCard "worksheets" "Worksheet" "W"] emptyRegistry emptyRegistry
    (fun nm o n _ h => Option.noConfusion h) (by decide) (by decide)

theorem story_noise_of_lines :
    ∀ lines : List String, (∀ line ∈ lines, NoiseLine line) →
      story_noise_lines lines = true := by
  intro lines h
  induction lines with
  | nil => rfl
  | cons line rest ih =>
    have hl := h line (List.mem_cons_self _ _)
    have hrest := ih fun l hl' => h l (List.mem_cons_of_mem _ hl')
    unfold story_noise_lines
    by_cases hskip : (strIn "repository-location" line || strIn "content-url" line) = true
    · rw [if_pos hskip]
      exact hrest
    · rw [if_neg hskip]
      have hany : meaningful_keywords.any (fun k => strIn k (pyLower line)) = false := by
        rcases hl with hl | hl | hl
        · exact absurd (by simp [hl]) hskip
        · exact absurd (by simp [hl]) hskip
        · simp only [List.any_eq_false]
          intro k hk
          simp [hl k hk]
      rw [if_neg (by simp [hany])]
      exact hrest

theorem section_cards_spec (env : Env) (sec label : String)
    (old new : List (String × String)) (reg : Registry) :
    ∃ reg', section_cards env sec label old new reg =
        .ok ((sortedUnion old new).flatMap (cards_for_name env sec label old new), reg') ∧
      reg'.workbook = reg.workbook ∧ reg'.calculations = reg.calculations ∧
      reg'.parameters = reg.parameters ∧ reg'.worksheets = reg.worksheets ∧
      reg'.dashboards = reg.dashboards ∧ reg'.stories = reg.stories := by
  obtain ⟨r2, hgo, hp⟩ := section_go_spec env sec label old new (sortedUnion old new) [] reg
  rw [List.nil_append] at hgo
  exact ⟨r2, hgo, hp⟩

theorem build_cards_spec (env : Env) (so sn : Sections) (reg : Registry) :
    ∃ reg',
      build_cards env so sn reg =
        .ok ((sortedUnion so.dashboards sn.dashboards).flatMap
              (cards_for_name env "dashboards" "Dashboard" so.dashboards sn.dashboards) ++
            ((sortedUnion so.worksheets sn.worksheets).flatMap
              (cards_for_name env "worksheets" "Worksheet" so.worksheets sn.worksheets) ++
            ((sortedUnion so.parameters sn.parameters).flatMap
              (cards_for_name env "parameters" "Parameter" so.parameters sn.parameters) ++
            ((sortedUnion so.stories sn.stories).flatMap
              (cards_for_name env "stories" "Story" so.stories sn.stories) ++
            ((sortedUnion so.datasources sn.datasources).flatMap
              (cards_for_name env "datasources" "Datasource" so.datasources sn.datasources) ++
            calc_cards env so.calculations sn.calculations sn)))), reg') ∧
      reg'.workbook = reg.workbook ∧ reg'.calculations = reg.calculations ∧
      reg'.parameters = reg.parameters ∧ reg'.worksheets = reg.worksheets ∧
      reg'.dashboards = reg.dashboards ∧ reg'.stories = reg.stories := by
  obtain ⟨r1, h1, hw1, hc1, hp1, hws1, hdb1, hst1⟩ :=
    section_cards_spec env "dashboards" "Dashboard" so.dashboards sn.dashboards reg
  obtain ⟨r2, h2, hw2, hc2, hp2, hws2, hdb2, hst2⟩ :=
    section_cards_spec env "worksheets" "Worksheet" so.worksheets sn.worksheets r1
  obtain ⟨r3, h3, hw3, hc3, hp3, hws3, hdb3, hst3⟩ :=
    section_cards_spec env "parameters" "Parameter" so.parameters sn.parameters r2
  obtain ⟨r4, h4, hw4, hc4, hp4, hws4, hdb4, hst4⟩ :=
    section_cards_spec env "stories" "Story" so.stories sn.stories r3
  obtain ⟨r5, h5, hw5, hc5, hp5, hws5, hdb5, hst5⟩ :=
    section_cards_spec env "datasources" "Datasource" so.datasources sn.datasources r4
  refine ⟨r5, ?_, ?_, ?_, ?_, ?_, ?_, ?_⟩
  · show (do
      let (c1, reg1) ← section_cards env "dashboards" "Dashboard"
        so.dashboards sn.dashboards reg
      let (c2, reg2) ← section_cards env "worksheets" "Worksheet"
        so.worksheets sn.worksheets reg1
      let (c3, reg3) ← section_cards env "parameters" "Parameter"
        so.parameters sn.parameters reg2
      let (c4, reg4) ← section_cards env "stories" "Story" so.stories sn.stories reg3
      let (c5, reg5) ← section_cards env "datasources" "Datasource"
        so.datasources sn.datasources reg4
      Except.ok (c1 ++ c2 ++ c3 ++ c4 ++ c5 ++
        calc_cards env so.calculations sn.calculations sn, reg5)) = _
    rw [h1, exbind_ok]
    dsimp only
    rw [h2, exbind_ok]
    dsimp only
    rw [h3, exbind_ok]
    dsimp only
    rw [h4, exbind_ok]
    dsimp only
    rw [h5, exbind_ok]
    simp [List.append_assoc]
  · exact hw5.trans (hw4.trans (hw3.trans (hw2.trans hw1)))
  · exact hc5.trans (hc4.trans (hc3.trans (hc2.trans hc1)))
  · exact hp5.trans (hp4.trans (hp3.trans (hp2.trans hp1)))
  · exact hws5.trans (hws4.trans (hws3.trans (hws2.trans hws1)))
  · exact hdb5.trans (hdb4.trans (hdb3.trans (hdb2.trans hdb1)))
  · exact hst5.trans (hst4.trans (hst3.trans (hst2.trans hst1)))

theorem register_story_shape (parent title status : String)
    (bullets : List (Option String)) (reg r1 : Registry)
    (h : register_change "story" parent title status bullets reg = .ok r1) :
    ∃ f, r1.stories = updateDict parent f reg.stories := by
  unfold register_change at h
  rw [if_neg (by intro hc; exact absurd hc.1 (by decide))] at h
  cases heff : effStatusOf "story" status bullets with
  | error e => rw [heff, exbind_err] at h; cases h
  | ok effS =>
    rw [heff, exbind_ok] at h
    cases hded : dedupe_visual_bullets bullets with
    | error e => rw [hded, exbind_err] at h; cases h
    | ok clean =>
      rw [hded, exbind_ok] at h
      cases h
      rw [applyMerge_story]
      exact ⟨_, rfl⟩

theorem populate_step_stories (c : Card) (reg r1 : Registry) (nm : String)
    (h : populate_step c reg = .ok r1) (hne : ¬ (c.sect = "stories" ∧ c.name = nm)) :
    alookup r1.stories nm = alookup reg.stories nm := by
  unfold populate_step at h
  by_cases h1 : c.sect = "datasources"
  · rw [if_pos h1] at h
    rw [(register_change_fields _ _ _ _ _ _ _ h).2.2.2.2.2.2 (by decide)]
  · rw [if_neg h1] at h
    by_cases h2 : c.sect = "calculations"
    · rw [if_pos h2] at h
      rw [(register_change_fields _ _ _ _ _ _ _ h).2.2.2.2.2.2 (by decide)]
    · rw [if_neg h2] at h
      by_cases h3 : c.sect = "parameters"
      · rw [if_pos h3] at h
        cases h
        rfl
      · rw [if_neg h3] at h
        by_cases h4 : c.sect = "worksheets"
        · rw [if_pos h4] at h
          rw [(register_change_fields _ _ _ _ _ _ _ h).2.2.2.2.2.2 (by decide)]
        · rw [if_neg h4] at h
          by_cases h5 : c.sect = "dashboards"
          · rw [if_pos h5] at h
            rw [(register_change_fields _ _ _ _ _ _ _ h).2.2.2.2.2.2 (by decide)]
          · rw [if_neg h5] at h
            by_cases h6 : c.sect = "stories"
            · rw [if_pos h6] at h
              have hname : c.name ≠ nm := fun hn => hne ⟨h6, hn⟩
              by_cases h7 : c.bullets = []
              · rw [if_pos h7] at h
                cases h
                rfl
              · rw [if_neg h7] at h
                obtain ⟨f, hf⟩ := register_story_shape _ _ _ _ _ _ h
                rw [hf]
                exact alookup_updateDict_ne _ _ _ _ fun hn => hname hn.symm
            · rw [if_neg h6] at h
              cases h
              rfl

theorem populate_stories (cards : List Card) :
    ∀ (reg reg2 : Registry) (nm : String),
      populate_change_registry_from_cards cards reg = .ok reg2 →
      (∀ c ∈ cards, ¬ (c.sect = "stories" ∧ c.name = nm)) →
      alookup reg2.stories nm = alookup reg.stories nm := by
  induction cards with
  | nil =>
    intro reg reg2 nm h _
    cases h
    rfl
  | cons c rest ih =>
    intro reg reg2 nm h hall
    unfold populate_change_registry_from_cards at h
    cases hstep : populate_step c reg with
    | error e => rw [hstep, exbind_err] at h; cases h
    | ok r1 =>
      rw [hstep, exbind_ok] at h
      rw [ih r1 reg2 nm h fun d hd => hall d (List.mem_cons_of_mem _ hd)]
      exact populate_step_stories c reg r1 nm hstep
        (hall c (List.mem_cons_self _ _))

/-- C3: a narrative-sequence pair present under one name in both maps,
differing but with every diff line being publish-time noise (a
repository-location or content-url mention, or no meaningful keyword),
produces zero records: no card carries that story name, and the final
registry holds no story entry under that name. -/
theorem c3_story_publish_noise_elision :
    ∀ env so sn nm o n cards reg1 reg2,
      alookup so.stories nm = some o → alookup sn.stories nm = some n →
      o ≠ "" → n ≠ "" → o ≠ n →
      (∀ line ∈ splitLines (xmldiff_text env o n), NoiseLine line) →
      build_cards env so sn emptyRegistry = .ok (cards, reg1) →
      populate_change_registry_from_cards cards reg1 = .ok reg2 →
      (∀ c ∈ cards, ¬ (c.sect = "stories" ∧ c.name = nm)) ∧
      alookup reg2.stories nm = none := by
  intro env so sn nm o n cards reg1 reg2 ho hn ho' hn' hne hlines hb hp
  have hnoise : is_story_publish_noise env o n = true := by
    unfold is_story_publish_noise
    exact story_noise_of_lines _ hlines
  obtain ⟨r5, hbc, _, _, _, _, _, hst5⟩ := build_cards_spec env so sn emptyRegistry
  rw [hbc] at hb
  injection hb with hb2
  injection hb2 with hcards hreg1
  have hnostory : ∀ c ∈ cards, ¬ (c.sect = "stories" ∧ c.name = nm) := by
    intro c hc hcontra
    rw [← hcards] at hc
    rcases List.mem_append.1 hc with hc | hc
    · exact absurd ((cards_for_name_name _ _ _ _ _ _ c
        (List.mem_flatMap.1 hc).choose_spec.2).2.trans rfl) (by
          rw [hcontra.1]; decide)
    rcases List.mem_append.1 hc with hc | hc
    · exact absurd ((cards_for_name_name _ _ _ _ _ _ c
        (List.mem_flatMap.1 hc).choose_spec.2).2.trans rfl) (by
          rw [hcontra.1]; decide)
    rcases List.mem_append.1 hc with hc | hc
    · exact absurd ((cards_for_name_name _ _ _ _ _ _ c
        (List.mem_flatMap.1 hc).choose_spec.2).2.trans rfl) (by
          rw [hcontra.1]; decide)
    rcases List.mem_append.1 hc with hc | hc
    · obtain ⟨nmc, hnmc, hcmem⟩ := List.mem_flatMap.1 hc
      have hcn := cards_for_name_name _ _ _ _ _ _ c hcmem
      have : nmc = nm := by rw [← hcn.1, hcontra.2]
      subst this
      rw [cards_for_name_noise env "stories" "Story" so.stories sn.stories nmc o n
        ho hn ho' hn' hne (Or.inr rfl) hnoise] at hcmem
      cases hcmem
    rcases List.mem_append.1 hc with hc | hc
    · exact absurd ((cards_for_name_name _ _ _ _ _ _ c
        (List.mem_flatMap.1 hc).choose_spec.2).2.trans rfl) (by
          rw [hcontra.1]; decide)
    · exact absurd ((calc_cards_sect _ _ _ _ c hc).trans rfl) (by
        rw [hcontra.1]; decide)
  refine ⟨hnostory, ?_⟩
  rw [populate_stories cards reg1 reg2 nm hp hnostory, ← hreg1, hst5]
  rfl

instance : DecidablePred NoiseLine := fun line => by
  unfold NoiseLine
  infer_instance

/-- C3 witness: a story pair whose diff is one repository-location line
leaves no story entry in the registry. -/
theorem c3_story_publish_noise_elision_witness :
    alookup emptyRegistry.stories "S" = none :=
  (c3_story_publish_noise_elision envRepo
    { emptySections with stories := [("S", "s1")] }
    { emptySections with stories := [("S", "s2")] } "S" "s1" "s2" [] emptyRegistry
    emptyRegistry (by decide) (by decide) (by decide) (by decide) (by decide)
    (by decide) (by decide) (by decide)).2


theorem alookup_mem {α : Type} (d : List (String × α)) (k : String) (v : α)
    (h : alookup d k = some v) : (k, v) ∈ d := by
  induction d with
  | nil => cases h
  | cons p r ih =>
    obtain ⟨k', w⟩ := p
    by_cases hk : k' = k
    · subst hk
      rw [alookup, if_pos rfl] at h
      injection h with h
      subst h
      exact List.mem_cons_self _ _
    · rw [alookup, if_neg hk] at h
      exact List.mem_cons_of_mem _ (ih h)

theorem DictOK_bucket (d : List (String × List ChangeEntry)) (k : String)
    (hd : DictOK d) : BucketOK ((alookup d k).getD []) := by
  cases h : alookup d k with
  | none => exact List.Pairwise.nil
  | some v => exact hd (k, v) (alookup_mem d k v h)

theorem nodup_of_len_le_one {α : Type} (l : List α) (h : l.length ≤ 1) : l.Nodup := by
  match l with
  | [] => exact List.nodup_nil
  | [x] => exact List.nodup_singleton x
  | x :: y :: r => simp only [List.length_cons] at h; omega

theorem mergeBucket_first_match (o effS : String) (shown : List (Option String))
    (entry : ChangeEntry) :
    ∀ (pre : List ChangeEntry) (e : ChangeEntry) (post : List ChangeEntry),
      (∀ x ∈ pre, x.obj ≠ o) → e.obj = o →
      mergeBucket o effS shown entry (pre ++ e :: post) =
        pre ++ { e with
          bullets := dedupFirst (e.bullets ++ shown),
          status := if e.status.length < effS.length then effS
            else e.status } :: post := by
  intro pre
  induction pre with
  | nil =>
    intro e post _ he
    rw [List.nil_append, mergeBucket_cons_match o effS shown entry e post he,
      List.nil_append]
  | cons x xs ih =>
    intro e post hpre he
    rw [List.cons_append, mergeBucket_cons_miss o effS shown entry x _
        (hpre x (List.mem_cons_self _ _)),
      ih e post (fun y hy => hpre y (List.mem_cons_of_mem _ hy)) he, List.cons_append]

theorem mergeBucket_obj_mem (o effS : String) (shown : List (Option String))
    (entry : ChangeEntry) :
    ∀ B x, x ∈ mergeBucket o effS shown entry B →
      (∃ y ∈ B, x.obj = y.obj) ∨ x = entry := by
  intro B
  induction B with
  | nil =>
    intro x hx
    rw [mergeBucket_nil, List.mem_singleton] at hx
    exact Or.inr hx
  | cons e rest ih =>
    intro x hx
    by_cases he : e.obj = o
    · rw [mergeBucket_cons_match o effS shown entry e rest he] at hx
      rcases List.mem_cons.1 hx with rfl | hx
      · exact Or.inl ⟨e, List.mem_cons_self _ _, rfl⟩
      · exact Or.inl ⟨x, List.mem_cons_of_mem _ hx, rfl⟩
    · rw [mergeBucket_cons_miss o effS shown entry e rest he] at hx
      rcases List.mem_cons.1 hx with rfl | hx
      · exact Or.inl ⟨x, List.mem_cons_self _ _, rfl⟩
      · rcases ih x hx with ⟨y, hy, hxy⟩ | hx
        · exact Or.inl ⟨y, List.mem_cons_of_mem _ hy, hxy⟩
        · exact Or.inr hx

theorem mergeBucket_BucketOK (o effS : String) (shown : List (Option String))
    (entry : ChangeEntry) (hentry : entry.obj = o) :
    ∀ B, BucketOK B → BucketOK (mergeBucket o effS shown entry B) := by
  intro B
  induction B with
  | nil =>
    intro _
    rw [mergeBucket_nil]
    exact List.pairwise_singleton _ _
  | cons e rest ih =>
    intro hok
    obtain ⟨hhead, hrest⟩ := List.pairwise_cons.1 hok
    by_cases he : e.obj = o
    · rw [mergeBucket_cons_match o effS shown entry e rest he]
      refine List.pairwise_cons.2 ⟨?_, hrest⟩
      intro x hx hobj
      exact hhead x hx hobj
    · rw [mergeBucket_cons_miss o effS shown entry e rest he]
      refine List.pairwise_cons.2 ⟨?_, ih hrest⟩
      intro x hx hobj
      rcases mergeBucket_obj_mem o effS shown entry rest x hx with ⟨y, hy, hxy⟩ | hxe
      · exact hhead y hy (hobj.trans hxy)
      · exact absurd (hobj.trans (hxe ▸ hentry)) he

theorem BucketOK_append_one (B : List ChangeEntry) (fe : ChangeEntry)
    (hok : BucketOK B)
    (hfe : ∀ a ∈ B, a.obj = fe.obj → a.obj = "__datasource_filters__") :
    BucketOK (B ++ [fe]) := by
  rw [BucketOK, List.pairwise_append]
  refine ⟨hok, List.pairwise_singleton _ _, ?_⟩
  intro a ha b hb hobj
  rw [List.mem_singleton] at hb
  subst hb
  exact hfe a ha hobj

theorem DictOK_updateDict (k : String) (f : List ChangeEntry → List ChangeEntry) :
    ∀ d : List (String × List ChangeEntry), DictOK d →
      BucketOK (f ((alookup d k).getD [])) → DictOK (updateDict k f d) := by
  intro d
  induction d with
  | nil =>
    intro _ hf p hp
    rw [updateDict] at hp
    rw [List.mem_singleton] at hp
    subst hp
    exact hf
  | cons q r ih =>
    obtain ⟨k', v⟩ := q
    by_cases hk : k' = k
    · subst hk
      intro hd hf p hp
      rw [updateDict, if_pos rfl] at hp
      rcases List.mem_cons.1 hp with rfl | hp
      · simpa [alookup] using hf
      · exact hd p (List.mem_cons_of_mem _ hp)
    · intro hd hf p hp
      rw [updateDict, if_neg hk] at hp
      rcases List.mem_cons.1 hp with rfl | hp
      · exact hd (k', v) (List.mem_cons_self _ _)
      · refine ih (fun q hq => hd q (List.mem_cons_of_mem _ hq)) ?_ p hp
        rw [alookup, if_neg hk] at hf
        exact hf

theorem applyMerge_RegistryOK (level parent : String)
    (f : List ChangeEntry → List ChangeEntry)
    (hf : ∀ B, BucketOK B → BucketOK (f B)) (reg : Registry)
    (hok : RegistryOK reg) : RegistryOK (applyMerge level parent f reg) := by
  obtain ⟨hw, hds, hc, hp, hws, hdb, hst⟩ := hok
  by_cases h1 : level = "workbook"
  · subst h1
    rw [applyMerge_workbook]
    exact ⟨hf _ hw, hds, hc, hp, hws, hdb, hst⟩
  by_cases h2 : level = "datasource"
  · subst h2
    rw [applyMerge_datasource]
    exact ⟨hw, DictOK_updateDict parent f reg.datasources hds
      (hf _ (DictOK_bucket reg.datasources parent hds)), hc, hp, hws, hdb, hst⟩
  by_cases h3 : level = "worksheet"
  · subst h3
    rw [applyMerge_worksheet]
    exact ⟨hw, hds, hc, hp, DictOK_updateDict parent f reg.worksheets hws
      (hf _ (DictOK_bucket reg.worksheets parent hws)), hdb, hst⟩
  by_cases h4 : level = "dashboard"
  · subst h4
    rw [applyMerge_dashboard]
    exact ⟨hw, hds, hc, hp, hws, DictOK_updateDict parent f reg.dashboards hdb
      (hf _ (DictOK_bucket reg.dashboards parent hdb)), hst⟩
  by_cases h5 : level = "parameter"
  · subst h5
    rw [applyMerge_parameter]
    exact ⟨hw, hds, hc, DictOK_updateDict parent f reg.parameters hp
      (hf _ (DictOK_bucket reg.parameters parent hp)), hws, hdb, hst⟩
  by_cases h6 : level = "story"
  · subst h6
    rw [applyMerge_story]
    exact ⟨hw, hds, hc, hp, hws, hdb, DictOK_updateDict parent f reg.stories hst
      (hf _ (DictOK_bucket reg.stories parent hst))⟩
  · have heq : applyMerge level parent f reg = reg := by
      unfold applyMerge
      rw [if_neg h1, if_neg h2, if_neg h3, if_neg h4, if_neg h5, if_neg h6]
    rw [heq]
    exact ⟨hw, hds, hc, hp, hws, hdb, hst⟩

theorem register_RegistryOK (level parent title status : String)
    (bullets : List (Option String)) (reg r1 : Registry)
    (hok : RegistryOK reg)
    (h : register_change level parent title status bullets reg = .ok r1) :
    RegistryOK r1 := by
  unfold register_change at h
  by_cases hfl : level = "datasource" ∧ title = "Datasource Filters"
  · rw [if_pos hfl] at h
    cases h
    obtain ⟨hw, hds, hc, hp, hws, hdb, hst⟩ := hok
    refine ⟨hw, ?_, hc, hp, hws, hdb, hst⟩
    refine DictOK_updateDict parent _ reg.datasources hds ?_
    exact BucketOK_append_one _ _ (DictOK_bucket reg.datasources parent hds)
      (fun a _ hobj => hobj)
  · rw [if_neg hfl] at h
    cases heff : effStatusOf level status bullets with
    | error e => rw [heff, exbind_err] at h; cases h
    | ok effS =>
      rw [heff, exbind_ok] at h
      cases hded : dedupe_visual_bullets bullets with
      | error e => rw [hded, exbind_err] at h; cases h
      | ok clean =>
        rw [hded, exbind_ok] at h
        cases h
        exact applyMerge_RegistryOK level parent _
          (mergeBucket_BucketOK (objNameOf title) effS (shownOf title clean)
            ⟨pyStrip effS, pyStrip title, objNameOf title, shownOf title clean⟩ rfl)
          reg hok

theorem reg_effect_RegistryOK (env : Env) (label : String)
    (old new : List (String × String)) (nm : String) (reg reg' : Registry)
    (hok : RegistryOK reg)
    (h : reg_effect_for_name env label old new nm reg = .ok reg') :
    RegistryOK reg' := by
  unfold reg_effect_for_name summarize_datasources at h
  by_cases h1 : truthy (alookup old nm) = true ∧ ¬ truthy (alookup new nm) = true ∧
      label = "Datasource"
  · rw [if_pos h1] at h
    exact register_RegistryOK _ _ _ _ _ _ _ hok h
  · rw [if_neg h1] at h
    by_cases h2 : truthy (alookup new nm) = true ∧ ¬ truthy (alookup old nm) = true ∧
        label = "Datasource"
    · rw [if_pos h2] at h
      exact register_RegistryOK _ _ _ _ _ _ _ hok h
    · rw [if_neg h2] at h
      cases h
      exact hok

theorem section_go_RegistryOK (env : Env) (sec label : String)
    (old new : List (String × String)) :
    ∀ (names : List String) (acc : List Card) (reg : Registry)
      (out : List Card × Registry), RegistryOK reg →
      section_go env sec label old new names acc reg = .ok out →
      RegistryOK out.2 := by
  intro names
  induction names with
  | nil =>
    intro acc reg out hok h
    cases h
    exact hok
  | cons nm rest ih =>
    intro acc reg out hok h
    have h2 : (do
        let reg' ← reg_effect_for_name env label old new nm reg
        section_go env sec label old new rest
          (acc ++ cards_for_name env sec label old new nm) reg') = .ok out := h
    cases hre : reg_effect_for_name env label old new nm reg with
    | error e => rw [hre, exbind_err] at h2; cases h2
    | ok reg1 =>
      rw [hre, exbind_ok] at h2
      exact ih _ reg1 out (reg_effect_RegistryOK env label old new nm reg reg1 hok hre) h2

theorem section_cards_RegistryOK (env : Env) (sec label : String)
    (old new : List (String × String)) (reg : Registry)
    (out : List Card × Registry) (hok : RegistryOK reg)
    (h : section_cards env sec label old new reg = .ok out) : RegistryOK out.2 :=
  section_go_RegistryOK env sec label old new (sortedUnion old new) [] reg out hok h

theorem build_cards_RegistryOK (env : Env) (so sn : Sections) (reg : Registry)
    (cards : List Card) (reg1 : Registry) (hok : RegistryOK reg)
    (h : build_cards env so sn reg = .ok (cards, reg1)) : RegistryOK reg1 := by
  have h2 : (do
      let (c1, r1) ← section_cards env "dashboards" "Dashboard"
        so.dashboards sn.dashboards reg
      let (c2, r2) ← section_cards env "worksheets" "Worksheet"
        so.worksheets sn.worksheets r1
      let (c3, r3) ← section_cards env "parameters" "Parameter"
        so.parameters sn.parameters r2
      let (c4, r4) ← section_cards env "stories" "Story" so.stories sn.stories r3
      let (c5, r5) ← section_cards env "datasources" "Datasource"
        so.datasources sn.datasources r4
      Except.ok (c1 ++ c2 ++ c3 ++ c4 ++ c5 ++
        calc_cards env so.calculations sn.calculations sn, r5)) = .ok (cards, reg1) := h
  cases hs1 : section_cards env "dashboards" "Dashboard" so.dashboards sn.dashboards reg with
  | error e => rw [hs1, exbind_err] at h2; cases h2
  | ok p1 =>
    obtain ⟨c1, r1⟩ := p1
    rw [hs1, exbind_ok] at h2
    dsimp only at h2
    have hok1 := section_cards_RegistryOK env "dashboards" "Dashboard"
      so.dashboards sn.dashboards reg (c1, r1) hok hs1
    cases hs2 : section_cards env "worksheets" "Worksheet" so.worksheets sn.worksheets r1 with
    | error e => rw [hs2, exbind_err] at h2; cases h2
    | ok p2 =>
      obtain ⟨c2, r2⟩ := p2
      rw [hs2, exbind_ok] at h2
      dsimp only at h2
      have hok2 := section_cards_RegistryOK env "worksheets" "Worksheet"
        so.worksheets sn.worksheets r1 (c2, r2) hok1 hs2
      cases hs3 : section_cards env "parameters" "Parameter"
          so.parameters sn.parameters r2 with
      | error e => rw [hs3, exbind_err] at h2; cases h2
      | ok p3 =>
        obtain ⟨c3, r3⟩ := p3
        rw [hs3, exbind_ok] at h2
        dsimp only at h2
        have hok3 := section_cards_RegistryOK env "parameters" "Parameter"
          so.parameters sn.parameters r2 (c3, r3) hok2 hs3
        cases hs4 : section_cards env "stories" "Story" so.stories sn.stories r3 with
        | error e => rw [hs4, exbind_err] at h2; cases h2
        | ok p4 =>
          obtain ⟨c4, r4⟩ := p4
          rw [hs4, exbind_ok] at h2
          dsimp only at h2
          have hok4 := section_cards_RegistryOK env "stories" "Story"
            so.stories sn.stories r3 (c4, r4) hok3 hs4
          cases hs5 : section_cards env "datasources" "Datasource"
              so.datasources sn.datasources r4 with
          | error e => rw [hs5, exbind_err] at h2; cases h2
          | ok p5 =>
            obtain ⟨c5, r5⟩ := p5
            rw [hs5, exbind_ok] at h2
            dsimp only at h2
            have hok5 := section_cards_RegistryOK env "datasources" "Datasource"
              so.datasources sn.datasources r4 (c5, r5) hok4 hs5
            injection h2 with h3
            injection h3 with hcards hreg
            exact hreg ▸ hok5

theorem populate_step_params (c : Card) (reg r1 : Registry)
    (h : populate_step c reg = .ok r1) :
    (c.sect ≠ "parameters" → r1.parameters = reg.parameters) ∧
    (c.sect = "parameters" → r1.parameters =
      updateDict "Parameters"
        (fun l => l ++ [⟨c.status, "Parameter — " ++ c.name, c.name, c.bullets⟩])
        reg.parameters) := by
  unfold populate_step at h
  by_cases h1 : c.sect = "datasources"
  · rw [if_pos h1] at h
    exact ⟨fun _ => (register_change_fields _ _ _ _ _ _ _ h).2.2.2.2.2.1 (by decide),
      fun hp => absurd (h1.symm.trans hp) (by decide)⟩
  · rw [if_neg h1] at h
    by_cases h2 : c.sect = "calculations"
    · rw [if_pos h2] at h
      exact ⟨fun _ => (register_change_fields _ _ _ _ _ _ _ h).2.2.2.2.2.1 (by decide),
        fun hp => absurd (h2.symm.trans hp) (by decide)⟩
    · rw [if_neg h2] at h
      by_cases h3 : c.sect = "parameters"
      · rw [if_pos h3] at h
        cases h
        exact ⟨fun hne => absurd h3 hne, fun _ => rfl⟩
      · rw [if_neg h3] at h
        by_cases h4 : c.sect = "worksheets"
        · rw [if_pos h4] at h
          exact ⟨fun _ => (register_change_fields _ _ _ _ _ _ _ h).2.2.2.2.2.1 (by decide),
            fun hp => absurd hp h3⟩
        · rw [if_neg h4] at h
          by_cases h5 : c.sect = "dashboards"
          · rw [if_pos h5] at h
            exact ⟨fun _ => (register_change_fields _ _ _ _ _ _ _ h).2.2.2.2.2.1 (by decide),
              fun hp => absurd hp h3⟩
          · rw [if_neg h5] at h
            by_cases h6 : c.sect = "stories"
            · rw [if_pos h6] at h
              by_cases h7 : c.bullets = []
              · rw [if_pos h7] at h
                cases h
                exact ⟨fun _ => rfl, fun hp => absurd hp h3⟩
              · rw [if_neg h7] at h
                exact ⟨fun _ =>
                  (register_change_fields _ _ _ _ _ _ _ h).2.2.2.2.2.1 (by decide),
                  fun hp => absurd hp h3⟩
            · rw [if_neg h6] at h
              cases h
              exact ⟨fun _ => rfl, fun hp => absurd hp h3⟩

theorem populate_step_RegistryOK (c : Card) (reg r1 : Registry) (hok : RegistryOK reg)
    (hnew : c.sect = "parameters" →
      ∀ e ∈ (alookup reg.parameters "Parameters").getD [], e.obj = c.name →
        c.name = "__datasource_filters__")
    (h : populate_step c reg = .ok r1) : RegistryOK r1 := by
  unfold populate_step at h
  by_cases h1 : c.sect = "datasources"
  · rw [if_pos h1] at h
    exact register_RegistryOK _ _ _ _ _ _ _ hok h
  · rw [if_neg h1] at h
    by_cases h2 : c.sect = "calculations"
    · rw [if_pos h2] at h
      exact register_RegistryOK _ _ _ _ _ _ _ hok h
    · rw [if_neg h2] at h
      by_cases h3 : c.sect = "parameters"
      · rw [if_pos h3] at h
        cases h
        obtain ⟨hw, hds, hc, hp, hws, hdb, hst⟩ := hok
        refine ⟨hw, hds, hc, ?_, hws, hdb, hst⟩
        refine DictOK_updateDict "Parameters" _ reg.parameters hp ?_
        refine BucketOK_append_one _ _ (DictOK_bucket reg.parameters "Parameters" hp) ?_
        intro a ha hobj
        exact hobj.trans (hnew h3 a ha hobj)
      · rw [if_neg h3] at h
        by_cases h4 : c.sect = "worksheets"
        · rw [if_pos h4] at h
          exact register_RegistryOK _ _ _ _ _ _ _ hok h
        · rw [if_neg h4] at h
          by_cases h5 : c.sect = "dashboards"
          · rw [if_pos h5] at h
            exact register_RegistryOK _ _ _ _ _ _ _ hok h
          · rw [if_neg h5] at h
            by_cases h6 : c.sect = "stories"
            · rw [if_pos h6] at h
              by_cases h7 : c.bullets = []
              · rw [if_pos h7] at h
                cases h
                exact hok
              · rw [if_neg h7] at h
                exact register_RegistryOK _ _ _ _ _ _ _ hok h
            · rw [if_neg h6] at h
              cases h
              exact hok

theorem populate_RegistryOK :
    ∀ (cards : List Card) (reg reg2 : Registry), RegistryOK reg → ParamsOK cards reg →
      populate_change_registry_from_cards cards reg = .ok reg2 → RegistryOK reg2 := by
  intro cards
  induction cards with
  | nil =>
    intro reg reg2 hok _ h
    cases h
    exact hok
  | cons c rest ih =>
    intro reg reg2 hok hparams h
    unfold populate_change_registry_from_cards at h
    cases hstep : populate_step c reg with
    | error e => rw [hstep, exbind_err] at h; cases h
    | ok r1 =>
      rw [hstep, exbind_ok] at h
      have hnew : c.sect = "parameters" →
          ∀ e ∈ (alookup reg.parameters "Parameters").getD [], e.obj = c.name →
            c.name = "__datasource_filters__" := by
        intro hsect e he hobj
        refine hparams.2 c.name ?_ e he hobj
        have hpc : (c.sect == "parameters") = true := by simp [hsect]
        rw [List.filter_cons, if_pos hpc, List.map_cons]
        exact List.mem_cons_self _ _
      have hok1 := populate_step_RegistryOK c reg r1 hok hnew hstep
      refine ih r1 reg2 hok1 ⟨?_, ?_⟩ h
      · have h1 := hparams.1
        rw [List.filter_cons] at h1
        by_cases hpc : (c.sect == "parameters") = true
        · rw [if_pos hpc, List.map_cons] at h1
          exact (List.pairwise_cons.1 h1).2
        · rw [if_neg hpc] at h1
          exact h1
      · intro a ha e he hobj
        obtain ⟨hne, hpe⟩ := populate_step_params c reg r1 hstep
        by_cases hsect : c.sect = "parameters"
        · have hpc : (c.sect == "parameters") = true := by simp [hsect]
          have hb : (alookup r1.parameters "Parameters").getD [] =
              ((alookup reg.parameters "Parameters").getD []) ++
                [⟨c.status, "Parameter — " ++ c.name, c.name, c.bullets⟩] := by
            rw [hpe hsect, alookup_updateDict_self]
            rfl
          rw [hb] at he
          rcases List.mem_append.1 he with he | he
          · refine hparams.2 a ?_ e he hobj
            rw [List.filter_cons, if_pos hpc, List.map_cons]
            exact List.mem_cons_of_mem _ ha
          · rw [List.mem_singleton] at he
            subst he
            have h1 := hparams.1
            rw [List.filter_cons, if_pos hpc, List.map_cons] at h1
            exact hobj.symm.trans ((List.pairwise_cons.1 h1).1 a ha hobj)
        · rw [hne hsect] at he
          refine hparams.2 a ?_ e he hobj
          have hpc : ¬ (c.sect == "parameters") = true := by simp [hsect]
          rw [List.filter_cons, if_neg hpc]
          exact ha

theorem modifiedCards_len (env : Env) (sec label nm o n : String) :
    (modifiedCards env sec label nm o n).length ≤ 1 := by
  simp only [modifiedCards]
  split_ifs <;> simp

theorem cards_for_name_len (env : Env) (sec label : String)
    (old new : List (String × String)) (nm : String) :
    (cards_for_name env sec label old new nm).length ≤ 1 := by
  simp only [cards_for_name]
  split_ifs
  all_goals first | exact modifiedCards_len env sec label nm _ _ | simp

theorem flatMap_cards_names_nodup (env : Env) (sec label : String)
    (old new : List (String × String)) :
    ∀ names : List String, names.Nodup →
      ((names.flatMap (cards_for_name env sec label old new)).map Card.name).Nodup := by
  intro names
  induction names with
  | nil => intro _; simp
  | cons a rest ih =>
    intro hnd
    rw [List.flatMap_cons, List.map_append]
    refine List.Nodup.append ?_ (ih (List.Nodup.of_cons hnd)) ?_
    · refine nodup_of_len_le_one _ ?_
      rw [List.length_map]
      exact cards_for_name_len env sec label old new a
    · intro x hx1 hx2
      obtain ⟨c, hc, rfl⟩ := List.mem_map.1 hx1
      obtain ⟨c2, hc2, heq⟩ := List.mem_map.1 hx2
      obtain ⟨nm2, hnm2, hcnm⟩ := List.mem_flatMap.1 hc2
      have h1 : c.name = a := (cards_for_name_name env sec label old new a c hc).1
      have h2 : c2.name = nm2 := (cards_for_name_name env sec label old new nm2 c2 hcnm).1
      have ha : a = nm2 := by rw [← h1, ← heq, h2]
      exact (List.nodup_cons.1 hnd).1 (ha ▸ hnm2)

theorem filter_params_flatMap (env : Env) (sec label : String)
    (old new : List (String × String)) (names : List String)
    (hsec : sec ≠ "parameters") :
    (names.flatMap (cards_for_name env sec label old new)).filter
      (fun c => c.sect == "parameters") = [] := by
  refine List.filter_eq_nil_iff.2 fun c hc => ?_
  obtain ⟨nm, _, hcnm⟩ := List.mem_flatMap.1 hc
  have hs := (cards_for_name_name env sec label old new nm c hcnm).2
  simp [hs, hsec]

theorem filter_params_self (env : Env) (label : String)
    (old new : List (String × String)) (names : List String) :
    (names.flatMap (cards_for_name env "parameters" label old new)).filter
        (fun c => c.sect == "parameters") =
      names.flatMap (cards_for_name env "parameters" label old new) := by
  refine List.filter_eq_self.2 fun c hc => ?_
  obtain ⟨nm, _, hcnm⟩ := List.mem_flatMap.1 hc
  have hs := (cards_for_name_name env "parameters" label old new nm c hcnm).2
  simp [hs]

theorem filter_params_calc (env : Env) (oc nc : List (String × String)) (ns : Sections) :
    (calc_cards env oc nc ns).filter (fun c => c.sect == "parameters") = [] := by
  refine List.filter_eq_nil_iff.2 fun c hc => ?_
  have hs := calc_cards_sect env oc nc ns c hc
  simp [hs]

theorem build_cards_ParamsOK (env : Env) (so sn : Sections) (cards : List Card)
    (reg1 : Registry)
    (h : build_cards env so sn emptyRegistry = .ok (cards, reg1)) :
    ParamsOK cards reg1 := by
  obtain ⟨r5, hbc, _, _, hp5, _, _, _⟩ := build_cards_spec env so sn emptyRegistry
  rw [hbc] at h
  injection h with h1
  injection h1 with hcards hreg
  constructor
  · rw [← hcards]
    rw [List.filter_append, List.filter_append, List.filter_append, List.filter_append,
      List.filter_append]
    rw [filter_params_flatMap env "dashboards" "Dashboard" so.dashboards sn.dashboards _
        (by decide),
      filter_params_flatMap env "worksheets" "Worksheet" so.worksheets sn.worksheets _
        (by decide),
      filter_params_self env "Parameter" so.parameters sn.parameters _,
      filter_params_flatMap env "stories" "Story" so.stories sn.stories _ (by decide),
      filter_params_flatMap env "datasources" "Datasource" so.datasources sn.datasources _
        (by decide),
      filter_params_calc env so.calculations sn.calculations sn]
    rw [List.nil_append, List.append_nil, List.append_nil, List.append_nil]
    refine List.Pairwise.imp (fun hne heq => absurd heq hne) ?_
    exact flatMap_cards_names_nodup env "parameters" "Parameter" so.parameters sn.parameters
      _ (nodup_sortedUnion so.parameters sn.parameters)
  · intro a _ e he
    rw [← hreg, hp5] at he
    simp [emptyRegistry, alookup] at he

theorem levelBucket_other (reg : Registry) (level parent : String)
    (h1 : level ≠ "workbook") (h2 : level ≠ "datasource") (h3 : level ≠ "worksheet")
    (h4 : level ≠ "dashboard") (h5 : level ≠ "parameter") (h6 : level ≠ "story") :
    levelBucket reg level parent = [] := by
  unfold levelBucket
  rw [if_neg h1, if_neg h2, if_neg h3, if_neg h4, if_neg h5, if_neg h6]

theorem levelBucket_applyMerge (level parent : String)
    (f : List ChangeEntry → List ChangeEntry) (reg : Registry)
    (hl : level = "workbook" ∨ level = "datasource" ∨ level = "worksheet" ∨
      level = "dashboard" ∨ level = "parameter" ∨ level = "story") :
    levelBucket (applyMerge level parent f reg) level parent =
      f (levelBucket reg level parent) := by
  rcases hl with rfl | rfl | rfl | rfl | rfl | rfl
  · rw [applyMerge_workbook]
    rfl
  · rw [applyMerge_datasource]
    show (alookup (updateDict parent f reg.datasources) parent).getD [] = _
    rw [alookup_updateDict_self]
    rfl
  · rw [applyMerge_worksheet]
    show (alookup (updateDict parent f reg.worksheets) parent).getD [] = _
    rw [alookup_updateDict_self]
    rfl
  · rw [applyMerge_dashboard]
    show (alookup (updateDict parent f reg.dashboards) parent).getD [] = _
    rw [alookup_updateDict_self]
    rfl
  · rw [applyMerge_parameter]
    show (alookup (updateDict parent f reg.parameters) parent).getD [] = _
    rw [alookup_updateDict_self]
    rfl
  · rw [applyMerge_story]
    show (alookup (updateDict parent f reg.stories) parent).getD [] = _
    rw [alookup_updateDict_self]
    rfl

/-- C5: the registry merge rule and the uniqueness invariant hold.
First conjunct (merge rule): a non-filter registration whose target
bucket already holds an entry for the same object name merges into the
FIRST such entry — its bullet list is extended by the shown bullets with
first occurrences kept (`dedupFirst`), its status is replaced only when
the incoming effective status is strictly longer — and every other entry
of the bucket is untouched.  Second conjunct (filter exception): a
datasource-filter registration appends its record at the end of the
parent's bucket, never merging or overwriting.  Third conjunct
(invariant): populating any card list built by `build_cards` from the
fresh registry leaves every bucket of every level with at most one
record per object name, except `"__datasource_filters__"` records, which
may repeat. -/
theorem c5_registry_merge_invariant :
    (∀ level parent title status bullets reg r1
        (pre : List ChangeEntry) (e : ChangeEntry) (post : List ChangeEntry),
      ¬ (level = "datasource" ∧ title = "Datasource Filters") →
      register_change level parent title status bullets reg = .ok r1 →
      levelBucket reg level parent = pre ++ e :: post →
      (∀ x ∈ pre, x.obj ≠ objNameOf title) → e.obj = objNameOf title →
      ∃ effS clean, effStatusOf level status bullets = .ok effS ∧
        dedupe_visual_bullets bullets = .ok clean ∧
        levelBucket r1 level parent =
          pre ++ { e with
            bullets := dedupFirst (e.bullets ++ shownOf title clean),
            status := if e.status.length < effS.length then effS
              else e.status } :: post) ∧
    (∀ parent status bullets reg r1,
      register_change "datasource" parent "Datasource Filters" status bullets reg =
        .ok r1 →
      levelBucket r1 "datasource" parent =
        levelBucket reg "datasource" parent ++
          [filterEntry status "Datasource Filters" bullets]) ∧
    (∀ env so sn cards reg1 reg2,
      build_cards env so sn emptyRegistry = .ok (cards, reg1) →
      populate_change_registry_from_cards cards reg1 = .ok reg2 →
      RegistryOK reg2) := by
  refine ⟨?_, ?_, ?_⟩
  · intro level parent title status bullets reg r1 pre e post hfl h hbucket hpre he
    unfold register_change at h
    rw [if_neg hfl] at h
    cases heff : effStatusOf level status bullets with
    | error u => rw [heff, exbind_err] at h; cases h
    | ok effS =>
      rw [heff, exbind_ok] at h
      cases hded : dedupe_visual_bullets bullets with
      | error u => rw [hded, exbind_err] at h; cases h
      | ok clean =>
        rw [hded, exbind_ok] at h
        cases h
        refine ⟨effS, clean, rfl, rfl, ?_⟩
        have hlvl : level = "workbook" ∨ level = "datasource" ∨ level = "worksheet" ∨
            level = "dashboard" ∨ level = "parameter" ∨ level = "story" := by
          by_contra hc
          push_neg at hc
          obtain ⟨n1, n2, n3, n4, n5, n6⟩ := hc
          rw [levelBucket_other reg level parent n1 n2 n3 n4 n5 n6] at hbucket
          simp at hbucket
        rw [levelBucket_applyMerge level parent _ reg hlvl, hbucket]
        exact mergeBucket_first_match (objNameOf title) effS (shownOf title clean) _
          pre e post hpre he
  · intro parent status bullets reg r1 h
    unfold register_change at h
    rw [if_pos ⟨rfl, rfl⟩] at h
    cases h
    show (alookup (updateDict parent
        (fun l => l ++ [filterEntry status "Datasource Filters" bullets])
        reg.datasources) parent).getD [] = _
    rw [alookup_updateDict_self]
    rfl
  · intro env so sn cards reg1 reg2 hb hp
    have hok1 : RegistryOK reg1 :=
      build_cards_RegistryOK env so sn emptyRegistry cards reg1
        ⟨List.Pairwise.nil, fun p hp => absurd hp (List.not_mem_nil p),
         fun p hp => absurd hp (List.not_mem_nil p),
         fun p hp => absurd hp (List.not_mem_nil p),
         fun p hp => absurd hp (List.not_mem_nil p),
         fun p hp => absurd hp (List.not_mem_nil p),
         fun p hp => absurd hp (List.not_mem_nil p)⟩ hb
    exact populate_RegistryOK cards reg1 reg2 hok1
      (build_cards_ParamsOK env so sn cards reg1 hb) hp

/-- C5 witness: the three conjuncts at concrete inputs — a second `T`
record merges into the stored one, a filter record appends to the empty
bucket, and the registry populated from one removed-worksheet card
satisfies the invariant. -/
theorem c5_registry_merge_invariant_witness :
    (∃ effS clean,
      effStatusOf "worksheet" "modified" [some "b1"] = .ok effS ∧
      dedupe_visual_bullets [some "b1"] = .ok clean ∧
      levelBucket c5Reg1 "worksheet" "P" =
        [] ++ { c5Entry with
            bullets := dedupFirst (c5Entry.bullets ++ shownOf "T" clean),
            status := if c5Entry.status.length < effS.length then effS
              else c5Entry.status } :: []) ∧
    (levelBucket c5FReg1 "datasource" "DS" =
      levelBucket emptyRegistry "datasource" "DS" ++
        [filterEntry "info" "Datasource Filters" [some "f"]]) ∧
    RegistryOK c5RegPop := by
  refine ⟨?_, ?_, ?_⟩
  · exact c5_registry_merge_invariant.1 "worksheet" "P" "T" "modified" [some "b1"]
      c5Reg c5Reg1 [] c5Entry [] (by decide) (by decide) (by decide) (by decide)
      (by decide)
  · exact c5_registry_merge_invariant.2.1 "DS" "info" [some "f"] emptyRegistry c5FReg1
      (by decide)
  · exact c5_registry_merge_invariant.2.2 envN c5OldSecs emptySections
      [removedCard "worksheets" "Worksheet" "W"] emptyRegistry c5RegPop
      (by decide) (by decide)

theorem forall2_refl_of {α : Type} {R : α → α → Prop} (h : ∀ a, R a a) :
    ∀ l : List α, List.Forall₂ R l l := by
  intro l
  induction l with
  | nil => exact List.Forall₂.nil
  | cons a r ih => exact List.Forall₂.cons (h a) ih

theorem forall2_trans_of {α : Type} {R : α → α → Prop}
    (htrans : ∀ a b c, R a b → R b c → R a c) :
    ∀ (A B C : List α), List.Forall₂ R A B → List.Forall₂ R B C → List.Forall₂ R A C := by
  intro A
  induction A with
  | nil =>
    intro B C h1 h2
    cases h1
    cases h2
    exact List.Forall₂.nil
  | cons a A ih =>
    intro B C h1 h2
    cases h1 with
    | cons hab h1r =>
      cases h2 with
      | cons hbc h2r => exact List.Forall₂.cons (htrans _ _ _ hab hbc) (ih _ _ h1r h2r)

theorem forall2_split {α : Type} {R : α → α → Prop} :
    ∀ (A1 A2 B : List α), List.Forall₂ R (A1 ++ A2) B →
      ∃ B1 B2, B = B1 ++ B2 ∧ List.Forall₂ R A1 B1 ∧ List.Forall₂ R A2 B2 := by
  intro A1
  induction A1 with
  | nil =>
    intro A2 B h
    exact ⟨[], B, rfl, List.Forall₂.nil, h⟩
  | cons a A1 ih =>
    intro A2 B h
    cases h with
    | cons hab hrest =>
      rename_i b B2
      obtain ⟨B1, B3, rfl, h1, h2⟩ := ih A2 B2 hrest
      exact ⟨b :: B1, B3, rfl, List.Forall₂.cons hab h1, h2⟩

theorem EntryExt_refl (e : ChangeEntry) : EntryExt e e :=
  ⟨rfl, fun _ hx => hx, Or.inr rfl, le_refl _⟩

theorem EntryExt_trans (a b c : ChangeEntry) (h1 : EntryExt a b) (h2 : EntryExt b c) :
    EntryExt a c := by
  obtain ⟨hB1, hB2, hB3, hB4⟩ := h1
  obtain ⟨hC1, hC2, hC3, hC4⟩ := h2
  refine ⟨hC1.trans hB1, fun x hx => hC2 x (hB2 x hx), ?_, hB4.trans hC4⟩
  rcases hC3 with hn | he
  · exact Or.inl hn
  · rcases hB3 with hn | he2
    · exact Or.inl (he ▸ hn)
    · exact Or.inr (he.trans he2)

theorem BucketExt_refl (B : List ChangeEntry) : BucketExt B B :=
  ⟨B, [], (List.append_nil B).symm, forall2_refl_of EntryExt_refl B⟩

theorem BucketExt_trans (A B C : List ChangeEntry) (h1 : BucketExt A B)
    (h2 : BucketExt B C) : BucketExt A C := by
  obtain ⟨B0, e1, rfl, hAB⟩ := h1
  obtain ⟨C0, e2, rfl, hBC⟩ := h2
  obtain ⟨C1, C2, rfl, hB0C1, _⟩ := forall2_split B0 e1 C0 hBC
  exact ⟨C1, C2 ++ e2, List.append_assoc C1 C2 e2,
    forall2_trans_of EntryExt_trans A B0 C1 hAB hB0C1⟩

theorem BucketExt_append (B l : List ChangeEntry) : BucketExt B (B ++ l) :=
  ⟨B, l, rfl, forall2_refl_of EntryExt_refl B⟩

theorem DictExt_refl (d : List (String × List ChangeEntry)) : DictExt d d :=
  ⟨d, [], (List.append_nil d).symm,
   forall2_refl_of (fun p => ⟨rfl, BucketExt_refl p.2⟩) d⟩

theorem DictExt_trans (A B C : List (String × List ChangeEntry)) (h1 : DictExt A B)
    (h2 : DictExt B C) : DictExt A C := by
  obtain ⟨B0, e1, rfl, hAB⟩ := h1
  obtain ⟨C0, e2, rfl, hBC⟩ := h2
  obtain ⟨C1, C2, rfl, hB0C1, _⟩ := forall2_split B0 e1 C0 hBC
  exact ⟨C1, C2 ++ e2, List.append_assoc C1 C2 e2,
    forall2_trans_of (fun p q r hpq hqr =>
      ⟨hpq.1.trans hqr.1, BucketExt_trans _ _ _ hpq.2 hqr.2⟩) A B0 C1 hAB hB0C1⟩

theorem RegExt_refl (s : Registry) : RegExt s s :=
  ⟨BucketExt_refl _, DictExt_refl _, DictExt_refl _, DictExt_refl _, DictExt_refl _,
   DictExt_refl _, DictExt_refl _⟩

theorem RegExt_trans (s t u : Registry) (h1 : RegExt s t) (h2 : RegExt t u) :
    RegExt s u :=
  ⟨BucketExt_trans _ _ _ h1.1 h2.1, DictExt_trans _ _ _ h1.2.1 h2.2.1,
   DictExt_trans _ _ _ h1.2.2.1 h2.2.2.1, DictExt_trans _ _ _ h1.2.2.2.1 h2.2.2.2.1,
   DictExt_trans _ _ _ h1.2.2.2.2.1 h2.2.2.2.2.1,
   DictExt_trans _ _ _ h1.2.2.2.2.2.1 h2.2.2.2.2.2.1,
   DictExt_trans _ _ _ h1.2.2.2.2.2.2 h2.2.2.2.2.2.2⟩

theorem mergeBucket_BucketExt (o effS : String) (shown : List (Option String))
    (entry : ChangeEntry) :
    ∀ B, BucketExt B (mergeBucket o effS shown entry B) := by
  intro B
  induction B with
  | nil =>
    rw [mergeBucket_nil]
    exact ⟨[], [entry], rfl, List.Forall₂.nil⟩
  | cons e rest ih =>
    by_cases he : e.obj = o
    · rw [mergeBucket_cons_match o effS shown entry e rest he]
      refine ⟨_, [], (List.append_nil _).symm, List.Forall₂.cons ?_
        (forall2_refl_of EntryExt_refl rest)⟩
      refine ⟨rfl, fun x hx => (mem_dedupFirst _ _).2 (List.mem_append_left _ hx),
        Or.inl (nodup_dedupFirst _), ?_⟩
      by_cases hl : e.status.length < effS.length
      · rw [if_pos hl]
        exact le_of_lt hl
      · rw [if_neg hl]
    · rw [mergeBucket_cons_miss o effS shown entry e rest he]
      obtain ⟨C0, ext, heq, hall⟩ := ih
      exact ⟨e :: C0, ext, by rw [heq, List.cons_append],
        List.Forall₂.cons (EntryExt_refl e) hall⟩

theorem updateDict_DictExt (k : String) (f : List ChangeEntry → List ChangeEntry)
    (hf : ∀ v, BucketExt v (f v)) :
    ∀ d, DictExt d (updateDict k f d) := by
  intro d
  induction d with
  | nil =>
    rw [updateDict]
    exact ⟨[], [(k, f [])], rfl, List.Forall₂.nil⟩
  | cons p r ih =>
    obtain ⟨k', v⟩ := p
    by_cases hk : k' = k
    · rw [updateDict, if_pos hk]
      exact ⟨(k', f v) :: r, [], (List.append_nil _).symm,
        List.Forall₂.cons ⟨rfl, hf v⟩
          (forall2_refl_of (fun q => ⟨rfl, BucketExt_refl q.2⟩) r)⟩
    · rw [updateDict, if_neg hk]
      obtain ⟨C0, ext, heq, hall⟩ := ih
      exact ⟨(k', v) :: C0, ext, by rw [heq, List.cons_append],
        List.Forall₂.cons ⟨rfl, BucketExt_refl v⟩ hall⟩

theorem applyMerge_RegExt (level parent : String)
    (f : List ChangeEntry → List ChangeEntry) (hf : ∀ B, BucketExt B (f B))
    (reg : Registry) : RegExt reg (applyMerge level parent f reg) := by
  by_cases h1 : level = "workbook"
  · subst h1
    rw [applyMerge_workbook]
    exact ⟨hf _, DictExt_refl _, DictExt_refl _, DictExt_refl _, DictExt_refl _,
      DictExt_refl _, DictExt_refl _⟩
  by_cases h2 : level = "datasource"
  · subst h2
    rw [applyMerge_datasource]
    exact ⟨BucketExt_refl _, updateDict_DictExt parent f hf _, DictExt_refl _,
      DictExt_refl _, DictExt_refl _, DictExt_refl _, DictExt_refl _⟩
  by_cases h3 : level = "worksheet"
  · subst h3
    rw [applyMerge_worksheet]
    exact ⟨BucketExt_refl _, DictExt_refl _, DictExt_refl _, DictExt_refl _,
      updateDict_DictExt parent f hf _, DictExt_refl _, DictExt_refl _⟩
  by_cases h4 : level = "dashboard"
  · subst h4
    rw [applyMerge_dashboard]
    exact ⟨BucketExt_refl _, DictExt_refl _, DictExt_refl _, DictExt_refl _,
      DictExt_refl _, updateDict_DictExt parent f hf _, DictExt_refl _⟩
  by_cases h5 : level = "parameter"
  · subst h5
    rw [applyMerge_parameter]
    exact ⟨BucketExt_refl _, DictExt_refl _, DictExt_refl _,
      updateDict_DictExt parent f hf _, DictExt_refl _, DictExt_refl _, DictExt_refl _⟩
  by_cases h6 : level = "story"
  · subst h6
    rw [applyMerge_story]
    exact ⟨BucketExt_refl _, DictExt_refl _, DictExt_refl _, DictExt_refl _,
      DictExt_refl _, DictExt_refl _, updateDict_DictExt parent f hf _⟩
  · have heq : applyMerge level parent f reg = reg := by
      unfold applyMerge
      rw [if_neg h1, if_neg h2, if_neg h3, if_neg h4, if_neg h5, if_neg h6]
    rw [heq]
    exact RegExt_refl reg

theorem register_RegExt (level parent title status : String)
    (bullets : List (Option String)) (reg r1 : Registry)
    (h : register_change level parent title status bullets reg = .ok r1) :
    RegExt reg r1 := by
  unfold register_change at h
  by_cases hfl : level = "datasource" ∧ title = "Datasource Filters"
  · rw [if_pos hfl] at h
    cases h
    exact ⟨BucketExt_refl _,
      updateDict_DictExt parent _ (fun v => BucketExt_append v _) _, DictExt_refl _,
      DictExt_refl _, DictExt_refl _, DictExt_refl _, DictExt_refl _⟩
  · rw [if_neg hfl] at h
    cases heff : effStatusOf level status bullets with
    | error u => rw [heff, exbind_err] at h; cases h
    | ok effS =>
      rw [heff, exbind_ok] at h
      cases hded : dedupe_visual_bullets bullets with
      | error u => rw [hded, exbind_err] at h; cases h
      | ok clean =>
        rw [hded, exbind_ok] at h
        cases h
        exact applyMerge_RegExt level parent _
          (mergeBucket_BucketExt (objNameOf title) effS (shownOf title clean) _) reg

theorem populate_step_RegExt (c : Card) (reg r1 : Registry)
    (h : populate_step c reg = .ok r1) : RegExt reg r1 := by
  unfold populate_step at h
  by_cases h1 : c.sect = "datasources"
  · rw [if_pos h1] at h
    exact register_RegExt _ _ _ _ _ _ _ h
  · rw [if_neg h1] at h
    by_cases h2 : c.sect = "calculations"
    · rw [if_pos h2] at h
      exact register_RegExt _ _ _ _ _ _ _ h
    · rw [if_neg h2] at h
      by_cases h3 : c.sect = "parameters"
      · rw [if_pos h3] at h
        cases h
        exact ⟨BucketExt_refl _, DictExt_refl _, DictExt_refl _,
          updateDict_DictExt "Parameters" _ (fun v => BucketExt_append v _) _,
          DictExt_refl _, DictExt_refl _, DictExt_refl _⟩
      · rw [if_neg h3] at h
        by_cases h4 : c.sect = "worksheets"
        · rw [if_pos h4] at h
          exact register_RegExt _ _ _ _ _ _ _ h
        · rw [if_neg h4] at h
          by_cases h5 : c.sect = "dashboards"
          · rw [if_pos h5] at h
            exact register_RegExt _ _ _ _ _ _ _ h
          · rw [if_neg h5] at h
            by_cases h6 : c.sect = "stories"
            · rw [if_pos h6] at h
              by_cases h7 : c.bullets = []
              · rw [if_pos h7] at h
                cases h
                exact RegExt_refl _
              · rw [if_neg h7] at h
                exact register_RegExt _ _ _ _ _ _ _ h
            · rw [if_neg h6] at h
              cases h
              exact RegExt_refl _

theorem populate_RegExt :
    ∀ (cards : List Card) (reg r1 : Registry),
      populate_change_registry_from_cards cards reg = .ok r1 → RegExt reg r1 := by
  intro cards
  induction cards with
  | nil =>
    intro reg r1 h
    cases h
    exact RegExt_refl _
  | cons c rest ih =>
    intro reg r1 h
    unfold populate_change_registry_from_cards at h
    cases hstep : populate_step c reg with
    | error e => rw [hstep, exbind_err] at h; cases h
    | ok reg2 =>
      rw [hstep, exbind_ok] at h
      exact RegExt_trans reg reg2 r1 (populate_step_RegExt c reg reg2 hstep) (ih reg2 r1 h)

theorem mergeBucket_fix_shape (o effS : String) (shown : List (Option String))
    (entry : ChangeEntry) :
    ∀ B, mergeBucket o effS shown entry B = B →
      ∃ pre e post, B = pre ++ e :: post ∧ (∀ x ∈ pre, x.obj ≠ o) ∧ e.obj = o ∧
        dedupFirst (e.bullets ++ shown) = e.bullets ∧
        (if e.status.length < effS.length then effS else e.status) = e.status := by
  intro B
  induction B with
  | nil =>
    intro h
    rw [mergeBucket_nil] at h
    exact absurd h (List.cons_ne_nil entry [])
  | cons e rest ih =>
    intro h
    by_cases he : e.obj = o
    · rw [mergeBucket_cons_match o effS shown entry e rest he] at h
      injection h with h1 h2
      exact ⟨[], e, rest, rfl, fun x hx => absurd hx (List.not_mem_nil x), he,
        congrArg ChangeEntry.bullets h1, congrArg ChangeEntry.status h1⟩
    · rw [mergeBucket_cons_miss o effS shown entry e rest he] at h
      injection h with h1 h2
      obtain ⟨pre, e2, post, heq, hpre, he2, hb, hst⟩ := ih h2
      refine ⟨e :: pre, e2, post, by rw [List.cons_append, ← heq], ?_, he2, hb, hst⟩
      intro x hx
      rcases List.mem_cons.1 hx with rfl | hx
      · exact he
      · exact hpre x hx

theorem forall2_entry_obj :
    ∀ (A B : List ChangeEntry), List.Forall₂ EntryExt A B →
      ∀ x ∈ B, ∃ y ∈ A, x.obj = y.obj := by
  intro A
  induction A with
  | nil =>
    intro B h x hx
    cases h
    cases hx
  | cons a A ih =>
    intro B h x hx
    cases h with
    | cons hab hr =>
      rename_i b B2
      rcases List.mem_cons.1 hx with rfl | hx
      · exact ⟨a, List.mem_cons_self _ _, hab.1⟩
      · obtain ⟨y, hy, hxy⟩ := ih _ hr x hx
        exact ⟨y, List.mem_cons_of_mem _ hy, hxy⟩

theorem mergeBucket_fix_ext (o effS : String) (shown : List (Option String))
    (entry : ChangeEntry) (B B2 : List ChangeEntry)
    (hfix : mergeBucket o effS shown entry B = B) (hext : BucketExt B B2) :
    mergeBucket o effS shown entry B2 = B2 := by
  obtain ⟨pre, e, post, rfl, hpre, he, hbul, hstat⟩ :=
    mergeBucket_fix_shape o effS shown entry B hfix
  obtain ⟨C0, ext, rfl, hall⟩ := hext
  obtain ⟨C1, C2, rfl, hpreall, hconsall⟩ := forall2_split pre (e :: post) C0 hall
  cases hconsall with
  | cons hee hpostall =>
    rename_i e2 post2
    have hshape : (C1 ++ e2 :: post2) ++ ext = C1 ++ e2 :: (post2 ++ ext) := by
      rw [List.append_assoc, List.cons_append]
    rw [hshape]
    have hpre2 : ∀ x ∈ C1, x.obj ≠ o := by
      intro x hx
      obtain ⟨y, hy, hxy⟩ := forall2_entry_obj pre C1 hpreall x hx
      rw [hxy]
      exact hpre y hy
    have he2 : e2.obj = o := hee.1.trans he
    rw [mergeBucket_first_match o effS shown entry C1 e2 (post2 ++ ext) hpre2 he2]
    have hnodE : e.bullets.Nodup := by
      rw [← hbul]
      exact nodup_dedupFirst _
    have hnod2 : e2.bullets.Nodup := by
      rcases hee.2.2.1 with hn | heq
      · exact hn
      · rw [heq]
        exact hnodE
    have hsub2 : ∀ x ∈ shown, x ∈ e2.bullets := by
      intro x hx
      refine hee.2.1 x ?_
      rw [← hbul]
      exact (mem_dedupFirst _ _).2 (List.mem_append_right _ hx)
    have hb2 : dedupFirst (e2.bullets ++ shown) = e2.bullets :=
      dedupFirst_absorb e2.bullets shown hnod2 hsub2
    have hnlt : ¬ e.status.length < effS.length := by
      intro hlt
      rw [if_pos hlt] at hstat
      rw [hstat] at hlt
      exact lt_irrefl _ hlt
    have hnlt2 : ¬ e2.status.length < effS.length := by
      intro hlt
      have h1 : e2.status.length < e.status.length := lt_of_lt_of_le hlt (not_lt.1 hnlt)
      exact lt_irrefl _ (lt_of_lt_of_le h1 hee.2.2.2)
    rw [hb2, if_neg hnlt2]

theorem updateDict_eq_self (k : String) (f : List ChangeEntry → List ChangeEntry) :
    ∀ d, updateDict k f d = d → ∃ v, alookup d k = some v ∧ f v = v := by
  intro d
  induction d with
  | nil =>
    intro h
    rw [updateDict] at h
    exact absurd h (List.cons_ne_nil _ [])
  | cons p r ih =>
    obtain ⟨k2, v⟩ := p
    by_cases hk : k2 = k
    · subst hk
      intro h
      rw [updateDict, if_pos rfl] at h
      injection h with h1 h2
      exact ⟨v, by rw [alookup, if_pos rfl], congrArg Prod.snd h1⟩
    · intro h
      rw [updateDict, if_neg hk] at h
      injection h with h1 h2
      obtain ⟨v2, hv2, hfv2⟩ := ih h2
      refine ⟨v2, ?_, hfv2⟩
      rw [alookup, if_neg hk]
      exact hv2

theorem updateDict_fix (k : String) (f : List ChangeEntry → List ChangeEntry) :
    ∀ d v, alookup d k = some v → f v = v → updateDict k f d = d := by
  intro d
  induction d with
  | nil =>
    intro v hv _
    cases hv
  | cons p r ih =>
    obtain ⟨k2, w⟩ := p
    by_cases hk : k2 = k
    · subst hk
      intro v hv hfv
      rw [alookup, if_pos rfl] at hv
      injection hv with hv
      subst hv
      rw [updateDict, if_pos rfl, hfv]
    · intro v hv hfv
      rw [alookup, if_neg hk] at hv
      rw [updateDict, if_neg hk, ih v hv hfv]

theorem forall2_dict_alookup :
    ∀ (A B ext : List (String × List ChangeEntry)) (k : String) (v : List ChangeEntry),
      List.Forall₂ (fun p q => p.1 = q.1 ∧ BucketExt p.2 q.2) A B →
      alookup A k = some v →
      ∃ v2, alookup (B ++ ext) k = some v2 ∧ BucketExt v v2 := by
  intro A
  induction A with
  | nil =>
    intro B ext k v hall hv
    cases hv
  | cons p ps ih =>
    intro B ext k v hall hv
    cases hall with
    | cons hpq hrest =>
      rename_i q qs
      obtain ⟨k1, v1⟩ := p
      obtain ⟨k2, v2⟩ := q
      by_cases hk : k1 = k
      · rw [alookup, if_pos hk] at hv
        injection hv with hv
        subst hv
        refine ⟨v2, ?_, hpq.2⟩
        rw [List.cons_append, alookup, if_pos (hpq.1.symm.trans hk)]
      · rw [alookup, if_neg hk] at hv
        obtain ⟨v3, hv3, hb3⟩ := ih qs ext k v hrest hv
        refine ⟨v3, ?_, hb3⟩
        rw [List.cons_append, alookup, if_neg (fun hc => hk (hpq.1.trans hc))]
        exact hv3

theorem DictExt_alookup (d d2 : List (String × List ChangeEntry)) (hext : DictExt d d2)
    (k : String) (v : List ChangeEntry) (hv : alookup d k = some v) :
    ∃ v2, alookup d2 k = some v2 ∧ BucketExt v v2 := by
  obtain ⟨d0, ext, rfl, hall⟩ := hext
  exact forall2_dict_alookup d d0 ext k v hall hv

theorem applyMerge_fix_ext (level parent : String)
    (m : List ChangeEntry → List ChangeEntry)
    (hm : ∀ B B2, m B = B → BucketExt B B2 → m B2 = B2)
    (s t : Registry) (hext : RegExt s t) (hs : applyMerge level parent m s = s) :
    applyMerge level parent m t = t := by
  by_cases h1 : level = "workbook"
  · subst h1
    rw [applyMerge_workbook] at hs ⊢
    have hfix : m s.workbook = s.workbook := congrArg Registry.workbook hs
    rw [hm s.workbook t.workbook hfix hext.1]
  by_cases h2 : level = "datasource"
  · subst h2
    rw [applyMerge_datasource] at hs ⊢
    obtain ⟨v, hv, hfv⟩ :=
      updateDict_eq_self parent m s.datasources (congrArg Registry.datasources hs)
    obtain ⟨v2, hv2, hb2⟩ := DictExt_alookup s.datasources t.datasources hext.2.1 parent v hv
    rw [updateDict_fix parent m t.datasources v2 hv2 (hm v v2 hfv hb2)]
  by_cases h3 : level = "worksheet"
  · subst h3
    rw [applyMerge_worksheet] at hs ⊢
    obtain ⟨v, hv, hfv⟩ :=
      updateDict_eq_self parent m s.worksheets (congrArg Registry.worksheets hs)
    obtain ⟨v2, hv2, hb2⟩ :=
      DictExt_alookup s.worksheets t.worksheets hext.2.2.2.2.1 parent v hv
    rw [updateDict_fix parent m t.worksheets v2 hv2 (hm v v2 hfv hb2)]
  by_cases h4 : level = "dashboard"
  · subst h4
    rw [applyMerge_dashboard] at hs ⊢
    obtain ⟨v, hv, hfv⟩ :=
      updateDict_eq_self parent m s.dashboards (congrArg Registry.dashboards hs)
    obtain ⟨v2, hv2, hb2⟩ :=
      DictExt_alookup s.dashboards t.dashboards hext.2.2.2.2.2.1 parent v hv
    rw [updateDict_fix parent m t.dashboards v2 hv2 (hm v v2 hfv hb2)]
  by_cases h5 : level = "parameter"
  · subst h5
    rw [applyMerge_parameter] at hs ⊢
    obtain ⟨v, hv, hfv⟩ :=
      updateDict_eq_self parent m s.parameters (congrArg Registry.parameters hs)
    obtain ⟨v2, hv2, hb2⟩ :=
      DictExt_alookup s.parameters t.parameters hext.2.2.2.1 parent v hv
    rw [updateDict_fix parent m t.parameters v2 hv2 (hm v v2 hfv hb2)]
  by_cases h6 : level = "story"
  · subst h6
    rw [applyMerge_story] at hs ⊢
    obtain ⟨v, hv, hfv⟩ :=
      updateDict_eq_self parent m s.stories (congrArg Registry.stories hs)
    obtain ⟨v2, hv2, hb2⟩ :=
      DictExt_alookup s.stories t.stories hext.2.2.2.2.2.2 parent v hv
    rw [updateDict_fix parent m t.stories v2 hv2 (hm v v2 hfv hb2)]
  · unfold applyMerge
    rw [if_neg h1, if_neg h2, if_neg h3, if_neg h4, if_neg h5, if_neg h6]

theorem register_absorbed_ext (level parent title status : String)
    (bullets : List (Option String)) (s t : Registry)
    (hfl : ¬ (level = "datasource" ∧ title = "Datasource Filters"))
    (hs : register_change level parent title status bullets s = .ok s)
    (hext : RegExt s t) :
    register_change level parent title status bullets t = .ok t := by
  unfold register_change at hs ⊢
  rw [if_neg hfl] at hs ⊢
  cases heff : effStatusOf level status bullets with
  | error u => rw [heff, exbind_err] at hs; cases hs
  | ok effS =>
    rw [heff] at hs
    rw [exbind_ok] at hs ⊢
    cases hded : dedupe_visual_bullets bullets with
    | error u => rw [hded, exbind_err] at hs; cases hs
    | ok clean =>
      rw [hded] at hs
      rw [exbind_ok] at hs ⊢
      have hs2 : applyMerge level parent
          (mergeBucket (objNameOf title) effS (shownOf title clean)
            ⟨pyStrip effS, pyStrip title, objNameOf title, shownOf title clean⟩) s = s :=
        Except.ok.inj hs
      show Except.ok (applyMerge level parent
          (mergeBucket (objNameOf title) effS (shownOf title clean)
            ⟨pyStrip effS, pyStrip title, objNameOf title, shownOf title clean⟩) t) =
        Except.ok t
      exact congrArg Except.ok (applyMerge_fix_ext level parent _
        (mergeBucket_fix_ext (objNameOf title) effS (shownOf title clean) _) s t hext hs2)

theorem populate_step_absorb (c : Card) (reg reg2 t : Registry)
    (hsect : c.sect ≠ "parameters") (hst : pyStrip c.status = c.status)
    (hstep : populate_step c reg = .ok reg2) (hext : RegExt reg2 t) :
    populate_step c t = .ok t := by
  have hemd : (Char.ofNat 8212) ∉ "Datasource Filters".data := by decide
  unfold populate_step at hstep ⊢
  by_cases h1 : c.sect = "datasources"
  · rw [if_pos h1] at hstep ⊢
    have hfl : ¬ (("datasource" : String) = "datasource" ∧
        card_title c = "Datasource Filters") := by
      intro hc
      have hmem : (Char.ofNat 8212) ∈ (card_title c).data := by
        show (Char.ofNat 8212) ∈
          (c.icon.data ++ " ".data ++ c.title.data ++ (" — ").data ++ c.name.data)
        refine List.mem_append_left _ (List.mem_append_right _ ?_)
        decide
      rw [hc.2] at hmem
      exact hemd hmem
    exact register_absorbed_ext "datasource" c.name (card_title c) c.status c.bullets
      reg2 t hfl
      (register_absorb "datasource" c.name (card_title c) c.status c.bullets
        reg reg2 hst hfl hstep) hext
  · rw [if_neg h1] at hstep ⊢
    by_cases h2 : c.sect = "calculations"
    · rw [if_pos h2] at hstep ⊢
      have hfl : ¬ (("datasource" : String) = "datasource" ∧
          "Calculation — " ++ c.name = "Datasource Filters") := by
        intro hc
        have hmem : (Char.ofNat 8212) ∈ ("Calculation — " ++ c.name).data := by
          show (Char.ofNat 8212) ∈ ("Calculation — ".data ++ c.name.data)
          refine List.mem_append_left _ ?_
          decide
        rw [hc.2] at hmem
        exact hemd hmem
      exact register_absorbed_ext "datasource" "Unknown Datasource"
        ("Calculation — " ++ c.name) c.status c.bullets reg2 t hfl
        (register_absorb "datasource" "Unknown Datasource" ("Calculation — " ++ c.name)
          c.status c.bullets reg reg2 hst hfl hstep) hext
    · rw [if_neg h2] at hstep ⊢
      rw [if_neg hsect] at hstep ⊢
      by_cases h4 : c.sect = "worksheets"
      · rw [if_pos h4] at hstep ⊢
        have hfl : ¬ (("worksheet" : String) = "datasource" ∧
            card_title c = "Datasource Filters") := fun hc => absurd hc.1 (by decide)
        exact register_absorbed_ext "worksheet" c.name (card_title c) c.status c.bullets
          reg2 t hfl
          (register_absorb "worksheet" c.name (card_title c) c.status c.bullets
            reg reg2 hst hfl hstep) hext
      · rw [if_neg h4] at hstep ⊢
        by_cases h5 : c.sect = "dashboards"
        · rw [if_pos h5] at hstep ⊢
          have hfl : ¬ (("dashboard" : String) = "datasource" ∧
              card_title c = "Datasource Filters") := fun hc => absurd hc.1 (by decide)
          exact register_absorbed_ext "dashboard" c.name (card_title c) c.status c.bullets
            reg2 t hfl
            (register_absorb "dashboard" c.name (card_title c) c.status c.bullets
              reg reg2 hst hfl hstep) hext
        · rw [if_neg h5] at hstep ⊢
          by_cases h6 : c.sect = "stories"
          · rw [if_pos h6] at hstep ⊢
            by_cases h7 : c.bullets = []
            · rw [if_pos h7]
            · rw [if_neg h7] at hstep ⊢
              have hfl : ¬ (("story" : String) = "datasource" ∧
                  card_title c = "Datasource Filters") := fun hc => absurd hc.1 (by decide)
              exact register_absorbed_ext "story" c.name (card_title c) c.status c.bullets
                reg2 t hfl
                (register_absorb "story" c.name (card_title c) c.status c.bullets
                  reg reg2 hst hfl hstep) hext
          · rw [if_neg h6]

/-- C9: the claim fails as stated.  Two consecutive full runs over the
same fixed trees do not produce byte-identical registries, because the
process-global `CHANGE_REGISTRY` is never reset between runs and the
parameter records of `populate_change_registry_from_cards` are appended
without merging: the second run's registry carries the parameter record
twice. -/
theorem c9_counterexample :
    (do
      let (cards, regA) ← build_cards envN emptySections c9Secs emptyRegistry
      let r1 ← populate_change_registry_from_cards cards regA
      let (cards2, regB) ← build_cards envN emptySections c9Secs r1
      populate_change_registry_from_cards cards2 regB)
    ≠ (do
      let (cards, regA) ← build_cards envN emptySections c9Secs emptyRegistry
      populate_change_registry_from_cards cards regA) := by decide

/-- C9 (amended): each single run is a pure function of the input trees,
so re-running from a fresh registry reproduces the same registry; what
fails is re-running against the never-reset global registry, where the
non-merging parameter appends duplicate records.  The salvageable
stability property is absorption: when no card is a parameter card and
every card's status is free of surrounding whitespace, re-populating the
already-populated registry with the same card list leaves it
byte-identical. -/
theorem c9_populate_absorption :
    ∀ (cards : List Card) (reg r1 : Registry),
      (∀ c ∈ cards, c.sect ≠ "parameters" ∧ pyStrip c.status = c.status) →
      populate_change_registry_from_cards cards reg = .ok r1 →
      populate_change_registry_from_cards cards r1 = .ok r1 := by
  intro cards
  induction cards with
  | nil =>
    intro reg r1 _ h
    cases h
    rfl
  | cons c rest ih =>
    intro reg r1 hall h
    unfold populate_change_registry_from_cards at h
    cases hstep : populate_step c reg with
    | error e => rw [hstep, exbind_err] at h; cases h
    | ok reg2 =>
      rw [hstep, exbind_ok] at h
      have hstep1 : populate_step c r1 = .ok r1 :=
        populate_step_absorb c reg reg2 r1 (hall c (List.mem_cons_self _ _)).1
          (hall c (List.mem_cons_self _ _)).2 hstep (populate_RegExt rest reg2 r1 h)
      have hrest : populate_change_registry_from_cards rest r1 = .ok r1 :=
        ih reg2 r1 (fun d hd => hall d (List.mem_cons_of_mem _ hd)) h
      show (do
        let reg3 ← populate_step c r1
        populate_change_registry_from_cards rest reg3) = .ok r1
      rw [hstep1, exbind_ok]
      exact hrest

/-- C9 witness: re-populating the registry already populated from one
removed-worksheet card leaves it unchanged. -/
theorem c9_populate_absorption_witness :
    populate_change_registry_from_cards [removedCard "worksheets" "Worksheet" "W"]
        c9RegW = .ok c9RegW :=
  c9_populate_absorption [removedCard "worksheets" "Worksheet" "W"] emptyRegistry c9RegW
    (by decide) (by decide)
